import Mathlib

/-!
# A shallow embedding of the pyakl AKL engine

This file embeds the core of the `pyakl` execution engine in Lean 4 and
proves properties of the embedded code.

Conventions of the embedding:

* Python objects with identity (logic variables, environment ids, and-boxes,
  choice-boxes) live in arenas inside a single state record `St`; object
  identity (`is` / `id()`) becomes index equality.
* Machine-level mutation becomes explicit state passing.
* Python `float` payloads are modelled as rationals (`Rat`); `NaN`,
  infinities and rounding are outside the model.
* Functions whose Python originals can diverge (dereference chains,
  the worker loop, deep copies) take a fuel argument and return `Option`;
  `none` means the modelled computation did not finish within the fuel.
  Every recursion is structural on the fuel so that closed runs evaluate
  by `rfl`.
* A Python exception escaping a builtin is modelled with `Except`.
* The trail is a stack with its top at the head of the list (Python appends
  to and pops from the end of a list).
-/

/-- Terms of `term.py`: `Var` (by arena index), interned `Atom`, `Integer`,
`Float`, `Struct` (functor plus argument vector) and `Cons`.  The empty list
`NIL` is the interned atom `"[]"`.  Ports and reflections are modelled
separately and do not occur inside terms. -/
inductive PTerm where
  | var (n : Nat)
  | atom (s : String)
  | int (z : Int)
  | float (q : Rat)
  | struct (f : String) (args : List PTerm)
  | cons (head tail : PTerm)

mutual
/-- Decidable equality of terms (hand-written because of the nested list). -/
def PTerm.decEq : (a b : PTerm) → Decidable (a = b)
  | .var a, b =>
    match b with
    | .var b =>
      match Nat.decEq a b with
      | isTrue h => isTrue (by rw [h])
      | isFalse h => isFalse (fun hh => h (by cases hh; rfl))
    | .atom _ => isFalse nofun
    | .int _ => isFalse nofun
    | .float _ => isFalse nofun
    | .struct _ _ => isFalse nofun
    | .cons _ _ => isFalse nofun
  | .atom a, b =>
    match b with
    | .atom b =>
      match String.decEq a b with
      | isTrue h => isTrue (by rw [h])
      | isFalse h => isFalse (fun hh => h (by cases hh; rfl))
    | .var _ => isFalse nofun
    | .int _ => isFalse nofun
    | .float _ => isFalse nofun
    | .struct _ _ => isFalse nofun
    | .cons _ _ => isFalse nofun
  | .int a, b =>
    match b with
    | .int b =>
      match Int.instDecidableEq a b with
      | isTrue h => isTrue (by rw [h])
      | isFalse h => isFalse (fun hh => h (by cases hh; rfl))
    | .var _ => isFalse nofun
    | .atom _ => isFalse nofun
    | .float _ => isFalse nofun
    | .struct _ _ => isFalse nofun
    | .cons _ _ => isFalse nofun
  | .float a, b =>
    match b with
    | .float b =>
      match (inferInstance : DecidableEq Rat) a b with
      | isTrue h => isTrue (by rw [h])
      | isFalse h => isFalse (fun hh => h (by cases hh; rfl))
    | .var _ => isFalse nofun
    | .atom _ => isFalse nofun
    | .int _ => isFalse nofun
    | .struct _ _ => isFalse nofun
    | .cons _ _ => isFalse nofun
  | .struct f1 a1, b =>
    match b with
    | .struct f2 a2 =>
      match String.decEq f1 f2 with
      | isFalse h => isFalse (fun hh => h (by cases hh; rfl))
      | isTrue h1 =>
        match PTerm.decEqList a1 a2 with
        | isTrue h2 => isTrue (by rw [h1, h2])
        | isFalse h2 => isFalse (fun hh => h2 (by cases hh; rfl))
    | .var _ => isFalse nofun
    | .atom _ => isFalse nofun
    | .int _ => isFalse nofun
    | .float _ => isFalse nofun
    | .cons _ _ => isFalse nofun
  | .cons h1 t1, b =>
    match b with
    | .cons h2 t2 =>
      match PTerm.decEq h1 h2 with
      | isFalse h => isFalse (fun hh => h (by cases hh; rfl))
      | isTrue hh =>
        match PTerm.decEq t1 t2 with
        | isTrue ht => isTrue (by rw [hh, ht])
        | isFalse ht => isFalse (fun hhh => ht (by cases hhh; rfl))
    | .var _ => isFalse nofun
    | .atom _ => isFalse nofun
    | .int _ => isFalse nofun
    | .float _ => isFalse nofun
    | .struct _ _ => isFalse nofun

/-- Decidable equality of term lists. -/
def PTerm.decEqList : (a b : List PTerm) → Decidable (a = b)
  | [], [] => isTrue rfl
  | [], _ :: _ => isFalse nofun
  | _ :: _, [] => isFalse nofun
  | a :: as, b :: bs =>
    match PTerm.decEq a b with
    | isFalse h => isFalse (fun hh => h (by cases hh; rfl))
    | isTrue h1 =>
      match PTerm.decEqList as bs with
      | isTrue h2 => isTrue (by rw [h1, h2])
      | isFalse h2 => isFalse (fun hh => h2 (by cases hh; rfl))
end

instance : DecidableEq PTerm := PTerm.decEq

/-- The interned empty-list atom `NIL = Atom("[]")`. -/
def NIL : PTerm := PTerm.atom "[]"

/-- A suspension record (`engine.py`, class `Suspension`): a back pointer
from a variable cell to an and-box or a choice-box. -/
inductive Susp where
  | andbox (n : Nat)
  | choicebox (n : Nat)
deriving DecidableEq

/-- One variable cell.  `constrained` distinguishes `ConstrainedVar`
(which carries an environment and a suspension list) from a plain `Var`. -/
structure VarCell where
  name : String
  binding : Option PTerm := none
  constrained : Bool := false
  env : Option Nat := none
  susps : List Susp := []
deriving DecidableEq

/-- And-box status flags (`engine.py`, class `Status`). -/
inductive Status where
  | DEAD
  | STABLE
  | UNSTABLE
deriving DecidableEq

/-- Guard kinds of `program.py`, class `GuardType`. -/
inductive GuardType where
  | NONE
  | WAIT
  | QUIET_WAIT
  | ARROW
  | COMMIT
  | CUT
deriving DecidableEq

/-- Task types of the work queue (`engine.py`, class `TaskType`). -/
inductive TaskType where
  | PROMOTE
  | SPLIT
  | START
  | ROOT
deriving DecidableEq

/-- A task (`engine.py`, class `Task`). -/
structure TaskD where
  ttype : TaskType
  andbox : Option Nat := none
deriving DecidableEq

/-- An and-box (`engine.py`, dataclass `AndBox`).  Child and sibling links
are arena indices; `tried` is the first child choice-box.  `bodyGoals`
models the dynamically added `body_goals` attribute (`none` both when the
attribute is absent and when it is `None`, which the code never tells
apart: every use is `hasattr(andb, 'body_goals') and andb.body_goals`). -/
structure AndBoxD where
  status : Status := .STABLE
  env : Nat
  unifiers : List (PTerm × PTerm) := []
  constraints : List Unit := []
  tried : Option Nat := none
  cont : Option Unit := none
  father : Option Nat := none
  next : Option Nat := none
  prev : Option Nat := none
  goals : List PTerm := []
  localVars : List (String × Nat) := []
  bodyGoals : Option (List PTerm) := none
deriving DecidableEq

/-- A choice-box (`engine.py`, dataclass `ChoiceBox`).  `guardType` models
the dynamically added `guard_type` attribute: `none` when the attribute was
never assigned (`hasattr` is false), mirroring that a fresh `ChoiceBox()`
does not have it. -/
structure ChoiceBoxD where
  cont : Option Unit := none
  father : Option Nat := none
  predicate : Option String := none
  tried : Option Nat := none
  next : Option Nat := none
  prev : Option Nat := none
  guardType : Option GuardType := none
deriving DecidableEq

/-- The whole machine state: the variable / environment / box arenas, plus
the `ExState` of `engine.py` (trail, task queues; `recallQ` is the `recall`
deque) and the worker-level fields of `AKLWorker` (`solutions`,
`query_vars`).  `varCounter` mirrors the global `Var._counter` used to
generate display names. -/
structure St where
  vars : List VarCell := []
  envs : List (Option Nat) := []
  andbs : List AndBoxD := []
  chbs : List ChoiceBoxD := []
  trail : List (Nat × Option PTerm) := []
  tasks : List TaskD := []
  wake : List Nat := []
  recallQ : List Nat := []
  root : Option Nat := none
  solutions : List (List (String × PTerm)) := []
  queryVars : List (String × Nat) := []
  varCounter : Nat := 0
  portCounter : Nat := 0
deriving DecidableEq

instance : Inhabited VarCell := ⟨{ name := "" }⟩

instance : Inhabited AndBoxD := ⟨{ env := 0 }⟩

instance : Inhabited ChoiceBoxD := ⟨{}⟩

namespace St

def getVar (s : St) (n : Nat) : VarCell := s.vars.getD n default

def setVar (s : St) (n : Nat) (c : VarCell) : St := { s with vars := s.vars.set n c }

def getAndb (s : St) (n : Nat) : AndBoxD := s.andbs.getD n default

def setAndb (s : St) (n : Nat) (a : AndBoxD) : St := { s with andbs := s.andbs.set n a }

def getChb (s : St) (n : Nat) : ChoiceBoxD := s.chbs.getD n default

def setChb (s : St) (n : Nat) (c : ChoiceBoxD) : St := { s with chbs := s.chbs.set n c }

/-- Projection of the store to its binding slots. -/
def bindings (s : St) : List (Option PTerm) := s.vars.map (·.binding)

end St

/-- `Term.deref` of `term.py`: follow the binding chain of a variable; any
other term dereferences to itself.  Fuel bounds the chain length. -/
def deref (s : St) : Nat → PTerm → Option PTerm
  | 0, _ => none
  | fuel + 1, t =>
    match t with
    | .var n =>
      match (s.getVar n).binding with
      | none => some (.var n)
      | some b => deref s fuel b
    | t => some t

/-- `ExState.trail_binding`: push a `(var, previous-binding)` entry. -/
def trailBinding (s : St) (v : Nat) (old : Option PTerm) : St :=
  { s with trail := (v, old) :: s.trail }

/-- `ExState.trail_position`. -/
def trailPosition (s : St) : Nat := s.trail.length

/-- One pop of `ExState.undo_trail`: restore the recorded cell binding. -/
def undoStep (s : St) : St :=
  match s.trail with
  | [] => s
  | (v, old) :: rest =>
    { s with trail := rest, vars := s.vars.set v { s.getVar v with binding := old } }

/-- Pop `k` trail entries. -/
def undoSteps : Nat → St → St
  | 0, s => s
  | k + 1, s => undoSteps k (undoStep s)

/-- `ExState.undo_trail(to_pos)`: pop entries, restoring each cell's
binding, while the trail is longer than `pos` (so exactly
`length - pos` pops). -/
def undoTrailTo (s : St) (pos : Nat) : St := undoSteps (s.trail.length - pos) s

/-- The loop body of `ConstrainedVar.wake_all`: queue one suspension. -/
def suspStep (s : St) (sp : Susp) : St :=
  match sp with
  | .andbox a => { s with wake := s.wake ++ [a] }
  | .choicebox cb => { s with recallQ := s.recallQ ++ [cb] }

/-- `ConstrainedVar.wake_all`: move every suspension of the cell to the
`wake` / `recall` queues (in list order, newest first as in the Python
linked list) and clear the cell's suspension list. -/
def wakeAll (s : St) (v : Nat) : St :=
  let c := s.getVar v
  let s' := c.susps.foldl suspStep s
  s'.setVar v { c with susps := [] }

mutual
/-- `_occurs_in` of `unify.py`. -/
def occursIn (s : St) : Nat → Nat → PTerm → Option Bool
  | 0, _, _ => none
  | fuel + 1, v, t => do
    let t ← deref s fuel t
    match t with
    | .var n => some (n == v)
    | .struct _ args => occursInList s fuel v args
    | .cons h tl => do
      let hb ← occursIn s fuel v h
      if hb then some true else occursIn s fuel v tl
    | _ => some false

/-- `any(_occurs_in(var, arg) for arg in term.args)`. -/
def occursInList (s : St) : Nat → Nat → List PTerm → Option Bool
  | 0, _, _ => none
  | _ + 1, _, [] => some false
  | fuel + 1, v, a :: as => do
    let b ← occursIn s fuel v a
    if b then some true else occursInList s fuel v as
end

/-- The mutation part of `_bind_var` of `unify.py` (with an execution state
always present, as at every call site relevant here): push a trail entry,
write the binding slot, wake suspensions of a constrained cell. -/
def bindVarUCore (s : St) (v : Nat) (t : PTerm) : St :=
  let c := s.getVar v
  let s := trailBinding s v c.binding
  let s := s.setVar v { s.getVar v with binding := some t }
  if c.constrained then wakeAll s v else s

/-- `_bind_var`: optional occurs check, then bind. -/
def bindVarU (s : St) (fuel : Nat) (v : Nat) (t : PTerm) (oc : Bool) :
    Option (Bool × St) :=
  if oc then
    match occursIn s fuel v t with
    | none => none
    | some true => some (false, s)
    | some false => some (true, bindVarUCore s v t)
  else some (true, bindVarUCore s v t)

mutual
/-- `unify` of `unify.py`: dereference both operands; identical terms
succeed (Python tests object identity `t1 is t2`; on structurally equal
terms the recursive path binds nothing and also succeeds, so term equality
is the faithful arena-level reading); a variable side binds; otherwise the
non-variable cases of `_unify_nonvar` apply in source order. -/
def unifyF (s : St) : Nat → PTerm → PTerm → Bool → Option (Bool × St)
  | 0, _, _, _ => none
  | fuel + 1, t1, t2, oc =>
    match deref s fuel t1, deref s fuel t2 with
    | some t1, some t2 =>
      if t1 = t2 then
        some (true, s)
      else
        match t1, t2 with
        | .var n, t2 => bindVarU s fuel n t2 oc
        | t1, .var n => bindVarU s fuel n t1 oc
        | .atom a, t2 =>
          some ((match t2 with | .atom b => a == b | _ => false), s)
        | .int a, t2 =>
          some ((match t2 with | .int b => a == b | _ => false), s)
        | .float a, t2 =>
          some ((match t2 with | .float b => a == b | _ => false), s)
        | .struct f1 args1, .struct f2 args2 =>
          if f1 ≠ f2 ∨ args1.length ≠ args2.length then
            some (false, s)
          else
            unifyArgsF s fuel args1 args2 oc
        | .struct _ _, _ => some (false, s)
        | .cons h1 tl1, .cons h2 tl2 =>
          match unifyF s fuel h1 h2 oc with
          | none => none
          | some (r, s') =>
            if r then unifyF s' fuel tl1 tl2 oc else some (false, s')
        | .cons _ _, _ => some (false, s)
    | _, _ => none

/-- `all(unify(a1, a2, exstate, occurs_check) for a1, a2 in zip(...))`:
left-to-right, short-circuiting on the first failure, keeping the bindings
already made. -/
def unifyArgsF (s : St) : Nat → List PTerm → List PTerm → Bool → Option (Bool × St)
  | _, [], _, _ => some (true, s)
  | _, _ :: _, [], _ => some (true, s)
  | fuel + 1, a :: as, b :: bs, oc =>
    match unifyF s fuel a b oc with
    | none => none
    | some (r, s') =>
      if r then unifyArgsF s' fuel as bs oc else some (false, s')
  | 0, _ :: _, _ :: _, _ => none
end

/-- Name generation of `Var.__init__`: an anonymous variable is named
`_G<counter+1>`; the global counter advances once more for the debug id. -/
def pyVarName : Option String → Nat → String × Nat
  | some nm, c => (nm, c + 1)
  | none, c => ("_G" ++ toString (c + 1), c + 2)

/-- Allocate a fresh variable cell (`Var(...)` / `ConstrainedVar(...)`). -/
def allocVar (s : St) (name : Option String) (constrained : Bool)
    (env : Option Nat) : Nat × St :=
  let (nm, c) := pyVarName name s.varCounter
  (s.vars.length,
   { s with vars := s.vars ++ [{ name := nm, constrained := constrained, env := env }],
            varCounter := c })

mutual
/-- `_identical` of `builtin.py`: structural identity without unification.
Python first tests `t1 is t2` (object identity), then `type(t1) != type(t2)`
(which in particular separates `Cons` from `Struct` and `Integer` from
`Float`).  Term equality stands in for object identity: on structurally
equal finite terms the recursive path also answers true. -/
def identicalF (s : St) : Nat → PTerm → PTerm → Option Bool
  | 0, _, _ => none
  | fuel + 1, t1, t2 =>
    if t1 = t2 then some true
    else
      match t1, t2 with
      | .var a, .var b => some (a == b)
      | .atom a, .atom b => some (a == b)
      | .int a, .int b => some (a == b)
      | .float a, .float b => some (a == b)
      | .struct f1 a1, .struct f2 a2 =>
        if f1 ≠ f2 ∨ a1.length ≠ a2.length then some false
        else identicalArgsF s fuel a1 a2
      | .cons h1 tl1, .cons h2 tl2 => do
        let h1' ← deref s fuel h1
        let h2' ← deref s fuel h2
        let b ← identicalF s fuel h1' h2'
        if b then do
          let tl1' ← deref s fuel tl1
          let tl2' ← deref s fuel tl2
          identicalF s fuel tl1' tl2'
        else some false
      | _, _ => some false

/-- `all(_identical(a.deref(), b.deref()) for a, b in zip(...))`. -/
def identicalArgsF (s : St) : Nat → List PTerm → List PTerm → Option Bool
  | 0, _, _ => none
  | _ + 1, [], _ => some true
  | _ + 1, _ :: _, [] => some true
  | fuel + 1, a :: as, b :: bs => do
    let a' ← deref s fuel a
    let b' ← deref s fuel b
    let r ← identicalF s fuel a' b'
    if r then identicalArgsF s fuel as bs else some false
end

/-- The Python exceptions caught or propagated by the arithmetic builtins. -/
inductive ArithErr where
  | valueError
  | zeroDivision
  | typeError
deriving DecidableEq

/-- A Python numeric value: `int` or `float` (modelled as a rational). -/
inductive AVal where
  | intV (z : Int)
  | floatV (q : Rat)
deriving DecidableEq

namespace AVal

/-- Numeric value of an `AVal` as a rational (Python's mixed comparison). -/
def toQ : AVal → Rat
  | .intV z => (z : Rat)
  | .floatV q => q

/-- Python `int(x)`: truncation toward zero. -/
def pyInt : AVal → Int
  | .intV z => z
  | .floatV q => if 0 ≤ q then ⌊q⌋ else ⌈q⌉

/-- Python `round(x)`: round half to even. -/
def pyRound : AVal → Int
  | .intV z => z
  | .floatV q =>
    let f := ⌊q⌋
    let r := q - (f : Rat)
    if r < 1/2 then f
    else if (1:Rat)/2 < r then f + 1
    else if Even f then f else f + 1

/-- `True` when both operands are ints (Python arithmetic then stays `int`). -/
def bothInt : AVal → AVal → Bool
  | .intV _, .intV _ => true
  | _, _ => false

end AVal

/-- Binary dispatch of `_eval_arith` (`term.arity == 2` branch); operators
in source order.  `none` marks results outside the rational float model
(irrational powers); bitwise and/or/xor on arbitrary ints are likewise left
outside the model. -/
def evalArithBin (op : String) (a b : AVal) : Option (Except ArithErr AVal) :=
  if op = "+" then
    some (.ok (match a, b with
      | .intV x, .intV y => .intV (x + y)
      | _, _ => .floatV (a.toQ + b.toQ)))
  else if op = "-" then
    some (.ok (match a, b with
      | .intV x, .intV y => .intV (x - y)
      | _, _ => .floatV (a.toQ - b.toQ)))
  else if op = "*" then
    some (.ok (match a, b with
      | .intV x, .intV y => .intV (x * y)
      | _, _ => .floatV (a.toQ * b.toQ)))
  else if op = "/" then
    -- Python true division: always a float; ZeroDivisionError on 0
    if b.toQ = 0 then some (.error .zeroDivision)
    else some (.ok (.floatV (a.toQ / b.toQ)))
  else if op = "//" then
    -- int(a) // int(b): floor division on truncated values
    if b.pyInt = 0 then some (.error .zeroDivision)
    else some (.ok (.intV (Int.fdiv a.pyInt b.pyInt)))
  else if op = "mod" then
    -- int(a) % int(b): Python % is floor-mod (sign of the divisor)
    if b.pyInt = 0 then some (.error .zeroDivision)
    else some (.ok (.intV (Int.fmod a.pyInt b.pyInt)))
  else if op = "**" ∨ op = "^" then
    match a, b with
    | .intV x, .intV y =>
      if 0 ≤ y then some (.ok (.intV (x ^ y.toNat)))
      else if x = 0 then some (.error .zeroDivision)
      else some (.ok (.floatV ((x : Rat) ^ y)))
    | _, _ =>
      if b.toQ.den = 1 then
        if a.toQ = 0 ∧ b.toQ.num < 0 then some (.error .zeroDivision)
        else some (.ok (.floatV (a.toQ ^ b.toQ.num)))
      else none
  else if op = "/\\" ∨ op = "\\/" ∨ op = "xor" then none
  else if op = "<<" then
    if b.pyInt < 0 then some (.error .valueError)
    else some (.ok (.intV (a.pyInt * 2 ^ b.pyInt.toNat)))
  else if op = ">>" then
    if b.pyInt < 0 then some (.error .valueError)
    else some (.ok (.intV (Int.fdiv a.pyInt (2 ^ b.pyInt.toNat))))
  else if op = "min" then
    some (.ok (if b.toQ < a.toQ then b else a))
  else if op = "max" then
    some (.ok (if a.toQ < b.toQ then b else a))
  else some (.error .valueError)

/-- Unary dispatch of `_eval_arith` (`term.arity == 1` branch).  `sqrt`,
`sin` and `cos` are outside the rational model. -/
def evalArithUn (op : String) (a : AVal) : Option (Except ArithErr AVal) :=
  if op = "-" then
    some (.ok (match a with | .intV x => .intV (-x) | .floatV q => .floatV (-q)))
  else if op = "abs" then
    some (.ok (match a with | .intV x => .intV |x| | .floatV q => .floatV |q|))
  else if op = "sign" then
    some (.ok (.intV ((if 0 < a.toQ then 1 else 0) - (if a.toQ < 0 then 1 else 0))))
  else if op = "\\" then
    some (.ok (.intV (-a.pyInt - 1)))
  else if op = "sqrt" ∨ op = "sin" ∨ op = "cos" then none
  else if op = "float" then
    some (.ok (.floatV a.toQ))
  else if op = "integer" ∨ op = "truncate" then
    some (.ok (.intV a.pyInt))
  else if op = "round" then
    some (.ok (.intV a.pyRound))
  else if op = "ceiling" then
    some (.ok (.intV ⌈a.toQ⌉))
  else if op = "floor" then
    some (.ok (.intV ⌊a.toQ⌋))
  else some (.error .valueError)

mutual
/-- `_eval_arith` of `builtin.py`: dereference; numbers evaluate to
themselves; a `Struct` evaluates all arguments left to right (any raised
error propagates) and then dispatches on arity and operator name; anything
else raises `ValueError`. -/
def evalArith (s : St) : Nat → PTerm → Option (Except ArithErr AVal)
  | 0, _ => none
  | fuel + 1, t => do
    let t ← deref s fuel t
    match t with
    | .int z => some (.ok (.intV z))
    | .float q => some (.ok (.floatV q))
    | .struct op args =>
      match evalArithList s fuel args with
      | none => none
      | some (.error e) => some (.error e)
      | some (.ok vals) =>
        match vals with
        | [a, b] => evalArithBin op a b
        | [a] => evalArithUn op a
        | _ => some (.error .valueError)
    | _ => some (.error .valueError)

/-- `[_eval_arith(a) for a in term.args]`: left to right, first raised
error propagates. -/
def evalArithList (s : St) : Nat → List PTerm → Option (Except ArithErr (List AVal))
  | 0, _ => none
  | _ + 1, [] => some (.ok [])
  | fuel + 1, a :: as =>
    match evalArith s fuel a with
    | none => none
    | some (.error e) => some (.error e)
    | some (.ok v) =>
      match evalArithList s fuel as with
      | none => none
      | some (.error e) => some (.error e)
      | some (.ok vs) => some (.ok (v :: vs))
end

/-- `builtin_is` (`is/2`): evaluate the right-hand side; a float equal to
its integer truncation becomes an `Integer`; unify the left-hand side with
the resulting number.  All three arithmetic exceptions are caught and
reported as failure. -/
def builtin_is (s : St) (fuel : Nat) (x e : PTerm) :
    Option (Except ArithErr (Bool × St)) :=
  match evalArith s fuel e with
  | none => none
  | some (.error _) => some (.ok (false, s))
  | some (.ok v) =>
    let v' : AVal := match v with
      | .floatV q => if q = (AVal.pyInt (.floatV q) : Rat) then .intV (AVal.pyInt (.floatV q)) else .floatV q
      | .intV z => .intV z
    match v' with
    | .intV z => (unifyF s fuel x (.int z) false).map .ok
    | .floatV q => (unifyF s fuel x (.float q) false).map .ok

/-- `builtin_lt` (`</2`): evaluate both sides; only `ValueError` is caught
(reported as failure); `ZeroDivisionError` and `TypeError` escape. -/
def builtin_lt (s : St) (fuel : Nat) (a b : PTerm) :
    Option (Except ArithErr (Bool × St)) :=
  match evalArith s fuel a with
  | none => none
  | some (.error .valueError) => some (.ok (false, s))
  | some (.error e) => some (.error e)
  | some (.ok va) =>
    match evalArith s fuel b with
    | none => none
    | some (.error .valueError) => some (.ok (false, s))
    | some (.error e) => some (.error e)
    | some (.ok vb) => some (.ok (decide (va.toQ < vb.toQ), s))

/-- `builtin_gt` (`>/2`); same error discipline as `builtin_lt`. -/
def builtin_gt (s : St) (fuel : Nat) (a b : PTerm) :
    Option (Except ArithErr (Bool × St)) :=
  match evalArith s fuel a with
  | none => none
  | some (.error .valueError) => some (.ok (false, s))
  | some (.error e) => some (.error e)
  | some (.ok va) =>
    match evalArith s fuel b with
    | none => none
    | some (.error .valueError) => some (.ok (false, s))
    | some (.error e) => some (.error e)
    | some (.ok vb) => some (.ok (decide (vb.toQ < va.toQ), s))

/-- `builtin_le` (`=</2`); same error discipline as `builtin_lt`. -/
def builtin_le (s : St) (fuel : Nat) (a b : PTerm) :
    Option (Except ArithErr (Bool × St)) :=
  match evalArith s fuel a with
  | none => none
  | some (.error .valueError) => some (.ok (false, s))
  | some (.error e) => some (.error e)
  | some (.ok va) =>
    match evalArith s fuel b with
    | none => none
    | some (.error .valueError) => some (.ok (false, s))
    | some (.error e) => some (.error e)
    | some (.ok vb) => some (.ok (decide (va.toQ ≤ vb.toQ), s))

/-- `builtin_ge` (`>=/2`); same error discipline as `builtin_lt`. -/
def builtin_ge (s : St) (fuel : Nat) (a b : PTerm) :
    Option (Except ArithErr (Bool × St)) :=
  match evalArith s fuel a with
  | none => none
  | some (.error .valueError) => some (.ok (false, s))
  | some (.error e) => some (.error e)
  | some (.ok va) =>
    match evalArith s fuel b with
    | none => none
    | some (.error .valueError) => some (.ok (false, s))
    | some (.error e) => some (.error e)
    | some (.ok vb) => some (.ok (decide (vb.toQ ≤ va.toQ), s))

/-- `builtin_arith_eq` (`=:=/2`); same error discipline as `builtin_lt`. -/
def builtin_arith_eq (s : St) (fuel : Nat) (a b : PTerm) :
    Option (Except ArithErr (Bool × St)) :=
  match evalArith s fuel a with
  | none => none
  | some (.error .valueError) => some (.ok (false, s))
  | some (.error e) => some (.error e)
  | some (.ok va) =>
    match evalArith s fuel b with
    | none => none
    | some (.error .valueError) => some (.ok (false, s))
    | some (.error e) => some (.error e)
    | some (.ok vb) => some (.ok (decide (va.toQ = vb.toQ), s))

/-- `builtin_arith_neq` (`=\=/2`); same error discipline as `builtin_lt`. -/
def builtin_arith_neq (s : St) (fuel : Nat) (a b : PTerm) :
    Option (Except ArithErr (Bool × St)) :=
  match evalArith s fuel a with
  | none => none
  | some (.error .valueError) => some (.ok (false, s))
  | some (.error e) => some (.error e)
  | some (.ok va) =>
    match evalArith s fuel b with
    | none => none
    | some (.error .valueError) => some (.ok (false, s))
    | some (.error e) => some (.error e)
    | some (.ok vb) => some (.ok (decide ¬(va.toQ = vb.toQ), s))

/-- `make_list` of `term.py`: build a `Cons` chain ending in `tail`. -/
def make_list (elems : List PTerm) (tail : PTerm := NIL) : PTerm :=
  elems.foldr .cons tail

/-- `list_to_python` of `term.py` on an already dereferenced term: walk the
cons spine collecting dereferenced heads; a spine not ending in `NIL`
raises `ValueError`, modelled as the inner `none`. -/
def listToPyGo (s : St) : Nat → PTerm → Option (Option (List PTerm))
  | 0, _ => none
  | fuel + 1, t =>
    match t with
    | .cons h tl => do
      let h' ← deref s fuel h
      let tl' ← deref s fuel tl
      match listToPyGo s fuel tl' with
      | none => none
      | some none => some none
      | some (some rest) => some (some (h' :: rest))
    | t => some (if t = NIL then some [] else none)

/-- `list_to_python(term)`: dereference the term first. -/
def list_to_python (s : St) (fuel : Nat) (t : PTerm) : Option (Option (List PTerm)) := do
  let t' ← deref s fuel t
  listToPyGo s fuel t'

/-- `builtin_length` (`length/2`): only the `+List` mode exists; the walk
counts cons cells over dereferenced tails; an improper list fails; an
unbound first argument falls through to failure. -/
def builtin_length (s : St) (fuel : Nat) (lst n : PTerm) : Option (Bool × St) := do
  let lstd ← deref s fuel lst
  let _nd ← deref s fuel n
  if ((match lstd with | .cons _ _ => true | _ => false) || lstd = NIL : Bool) then
    match listToPyGo s fuel lstd with
    | none => none
    | some none => some (false, s)
    | some (some elems) => unifyF s fuel n (.int elems.length) false
  else
    some (false, s)

/-- `builtin_univ` (`=../2`).  `+Term` mode: decompose an atomic term or a
`Struct` into a list and unify it with the second argument (a `Cons` first
argument returns failure).  `-Term` mode: convert the list, take its head
as functor, and build the term; a singleton list yields its element, a
non-atom functor with arguments fails. -/
def builtin_univ (s : St) (fuel : Nat) (t l : PTerm) : Option (Bool × St) := do
  let term ← deref s fuel t
  let lst ← deref s fuel l
  match term with
  | .var _ =>
    match lst with
    | .cons _ _ => do
      match ← list_to_python s fuel lst with
      | none => some (false, s)
      | some [] => some (false, s)
      | some (e0 :: restEls) => do
        let functor ← deref s fuel e0
        if restEls = [] then unifyF s fuel term functor false
        else
          match functor with
          | .atom f => unifyF s fuel term (.struct f restEls) false
          | _ => some (false, s)
    | _ => some (false, s)
  | .atom _ => unifyF s fuel l (make_list [term]) false
  | .int _ => unifyF s fuel l (make_list [term]) false
  | .float _ => unifyF s fuel l (make_list [term]) false
  | .struct f args => unifyF s fuel l (make_list (.atom f :: args)) false
  | _ => some (false, s)

/-- `type_order` inside `_term_compare`. -/
def type_order : PTerm → Nat
  | .var _ => 0
  | .float _ => 1
  | .int _ => 2
  | .atom _ => 3
  | .struct _ _ => 4
  | .cons _ _ => 4

mutual
/-- `_term_compare` of `builtin.py` on dereferenced terms (the source
dereferences both operands first; on resolved terms that is the identity,
so the pure function is the faithful reading).  Variables compare by cell
identity order (`id()` in Python, the arena index here).  Comparing a
`Cons` against a `Struct` reads `t2.head` resp. `t2.arity` on an object
that has no such attribute: the Python `AttributeError` is the
`Except.error`. -/
def term_compare : PTerm → PTerm → Except Unit Ordering
  | t1, t2 =>
    if type_order t1 ≠ type_order t2 then
      .ok (if type_order t1 < type_order t2 then .lt else .gt)
    else
      match t1, t2 with
      | .var a, .var b =>
        .ok (if a = b then .eq else if a < b then .lt else .gt)
      | .int a, .int b =>
        .ok (if a = b then .eq else if a < b then .lt else .gt)
      | .float a, .float b =>
        .ok (if a = b then .eq else if a < b then .lt else .gt)
      | .atom a, .atom b =>
        .ok (if a = b then .eq else if a < b then .lt else .gt)
      | .cons h1 tl1, t2 =>
        match t2 with
        | .cons h2 tl2 =>
          match term_compare h1 h2 with
          | .error e => .error e
          | .ok .lt => .ok .lt
          | .ok .gt => .ok .gt
          | .ok .eq => term_compare tl1 tl2
        | _ => .error ()
      | .struct f1 a1, t2 =>
        match t2 with
        | .struct f2 a2 =>
          if a1.length ≠ a2.length then
            .ok (if a1.length < a2.length then .lt else .gt)
          else if f1 ≠ f2 then
            .ok (if f1 < f2 then .lt else .gt)
          else
            term_compare_args a1 a2
        | _ => .error ()
      | _, _ => .ok .eq

/-- The argument loop of `_term_compare`: first non-equal argument pair
decides; equal prefixes continue; exhausted lists compare equal. -/
def term_compare_args : List PTerm → List PTerm → Except Unit Ordering
  | [], _ => .ok .eq
  | _ :: _, [] => .ok .eq
  | a :: as, b :: bs =>
    match term_compare a b with
    | .error e => .error e
    | .ok .lt => .ok .lt
    | .ok .gt => .ok .gt
    | .ok .eq => term_compare_args as bs
end

/-- `builtin_term_lt` (`@</2`) on dereferenced terms. -/
def builtin_term_lt (a b : PTerm) : Except Unit Bool :=
  (term_compare a b).map (· = .lt)

/-- `builtin_term_gt` (`@>/2`) on dereferenced terms. -/
def builtin_term_gt (a b : PTerm) : Except Unit Bool :=
  (term_compare a b).map (· = .gt)

/-- `builtin_term_le` (`@=</2`) on dereferenced terms. -/
def builtin_term_le (a b : PTerm) : Except Unit Bool :=
  (term_compare a b).map (· ≠ .gt)

/-- `builtin_term_ge` (`@>=/2`) on dereferenced terms. -/
def builtin_term_ge (a b : PTerm) : Except Unit Bool :=
  (term_compare a b).map (· ≠ .lt)

/-- The result atom `builtin_compare` (`compare/3`) unifies its first
argument with: `<`, `>` or `=` according to `_term_compare` on the last
two arguments. -/
def compare_atom (a b : PTerm) : Except Unit String :=
  (term_compare a b).map (fun c =>
    match c with
    | .lt => "<"
    | .gt => ">"
    | .eq => "=")

/-- The `_PortState` plus `Port` object of `term.py`: the stream tail cell
(a `Var` arena index updated on each send), the closed flag, and the port
id used for stream variable names. -/
structure PortD where
  pid : Nat
  initialStream : Nat
  streamTail : Nat
  closed : Bool := false
deriving DecidableEq

/-- `Port.__init__`: allocate the initial stream tail variable. -/
def Port.new (s : St) : PortD × St :=
  let pid := s.portCounter + 1
  let s := { s with portCounter := pid }
  let (v, s) := allocVar s (some ("_Stream" ++ toString pid)) false none
  ({ pid := pid, initialStream := v, streamTail := v }, s)

/-- `Port._do_close` (run by `close()` and by the `weakref.finalize`
finalizer): mark closed; if the current tail dereferences to an unbound
variable, bind it to `NIL` (a direct slot write, not trailed). -/
def Port.doClose (s : St) (fuel : Nat) (p : PortD) : Option (PortD × St) :=
  if p.closed then some (p, s)
  else
    match deref s fuel (.var p.streamTail) with
    | none => none
    | some tail =>
      match tail with
      | .var n =>
        if (s.getVar n).binding = none then
          some ({ p with closed := true }, s.setVar n { s.getVar n with binding := some NIL })
        else some ({ p with closed := true }, s)
      | _ => some ({ p with closed := true }, s)

/-- `Port.send`: a closed port refuses immediately; a tail already bound to
`NIL` closes the port and refuses; a bound non-variable tail refuses;
otherwise allocate a new tail variable, bind the old tail to
`Cons(message, newTail)` (direct slot write) and advance the tail. -/
def Port.send (s : St) (fuel : Nat) (p : PortD) (message : PTerm) :
    Option (Bool × PortD × St) :=
  if p.closed then some (false, p, s)
  else
    match deref s fuel (.var p.streamTail) with
    | none => none
    | some tail =>
      if tail = NIL then some (false, { p with closed := true }, s)
      else
        match tail with
        | .var n =>
          let (v', s) := allocVar s (some ("_Stream" ++ toString p.pid)) false none
          let s := s.setVar n { s.getVar n with binding := some (.cons message (.var v')) }
          some (true, { p with streamTail := v' }, s)
        | _ => some (false, p, s)

/-! ## Trail discipline

`TrailExt s s'` says the trail of `s'` extends the trail of `s` and that
undoing the new entries (newest first, as `undo_trail` pops them) restores
every binding slot of `s`.  Every step of `unify` preserves it. -/

/-- Replay a list of trail entries onto a binding projection (newest
entry first, the order in which `undo_trail` pops). -/
def applyUndo (bs : List (Option PTerm)) (ext : List (Nat × Option PTerm)) :
    List (Option PTerm) :=
  ext.foldl (fun bs e => bs.set e.1 e.2) bs

/-- The trail of `s'` extends that of `s`, and replaying the new entries
restores the binding slots of `s`. -/
def TrailExt (s s' : St) : Prop :=
  ∃ ext, s'.trail = ext ++ s.trail ∧ applyUndo s'.bindings ext = s.bindings

/-- A sequence of `unify` calls sharing one execution state (each call may
succeed or fail; a failing call still leaves its trailed bindings in
place, exactly as the source does). -/
def unifySeq (s : St) (fuel : Nat) : List (PTerm × PTerm × Bool) → Option St
  | [] => some s
  | (t1, t2, oc) :: rest =>
    match unifyF s fuel t1 t2 oc with
    | none => none
    | some (_, s') => unifySeq s' fuel rest

/-! ## Execution-tree structures (`engine.py`) and their operations -/

/-- Allocate an `EnvId` with the given parent. -/
def newEnv (s : St) (parent : Option Nat) : Nat × St :=
  (s.envs.length, { s with envs := s.envs ++ [parent] })

/-- Allocate an `AndBox()` with its dataclass defaults; the `env` default
factory allocates a fresh environment. -/
def newAndBox (s : St) : Nat × St :=
  let (e, s) := newEnv s none
  (s.andbs.length, { s with andbs := s.andbs ++ [{ env := e }] })

/-- Allocate a `ChoiceBox()` with its dataclass defaults. -/
def newChoiceBox (s : St) (father : Option Nat) (pred : Option String) : Nat × St :=
  (s.chbs.length, { s with chbs := s.chbs ++ [{ father := father, predicate := pred }] })

/-- `EnvId.is_ancestor_of`: walk parents from `other` looking for `selfE`. -/
def envWalk (s : St) : Nat → Nat → Option Nat → Option Bool
  | 0, _, _ => none
  | _ + 1, _, none => some false
  | fuel + 1, selfE, some cur =>
    if cur = selfE then some true
    else envWalk s fuel selfE (s.envs.getD cur none)

/-- `a.is_ancestor_of(b)` on environment indices. -/
def is_ancestor_of (s : St) (fuel : Nat) (a b : Nat) : Option Bool :=
  envWalk s fuel a (some b)

/-- `is_local_var` of `engine.py`: a constrained variable whose env is the
and-box's env. -/
def is_local_var (s : St) (v ab : Nat) : Bool :=
  (s.getVar v).constrained && ((s.getVar v).env == some (s.getAndb ab).env)

/-- `is_external_var` of `engine.py`: a constrained variable whose env is a
proper ancestor of the and-box's env.  A constrained variable with no env
would raise `AttributeError` in the source (modelled as `none`). -/
def is_external_var (s : St) (fuel : Nat) (v ab : Nat) : Option Bool :=
  if (s.getVar v).constrained then
    match (s.getVar v).env with
    | none => none
    | some e =>
      (is_ancestor_of s fuel e (s.getAndb ab).env).map
        (fun b => b && e ≠ (s.getAndb ab).env)
  else some false

/-- `AndBox.is_dead`. -/
def is_dead (s : St) (ab : Nat) : Bool := (s.getAndb ab).status == .DEAD

/-- `AndBox.is_stable`. -/
def is_stable (s : St) (ab : Nat) : Bool := (s.getAndb ab).status == .STABLE

/-- `AndBox.is_unstable`. -/
def is_unstable (s : St) (ab : Nat) : Bool := (s.getAndb ab).status == .UNSTABLE

/-- `AndBox.is_quiet`: no pending unifiers and no constraints. -/
def is_quiet (s : St) (ab : Nat) : Bool :=
  (s.getAndb ab).unifiers.isEmpty && (s.getAndb ab).constraints.isEmpty

/-- `AndBox.is_solved`: the docstring says "no remaining alternatives"; the
code only tests that there is no child choice-box (`self.tried is None`). -/
def is_solved (s : St) (ab : Nat) : Bool := (s.getAndb ab).tried == none

/-- `AndBox.mark_dead`. -/
def mark_dead (s : St) (ab : Nat) : St :=
  s.setAndb ab { s.getAndb ab with status := .DEAD }

/-- `AndBox.mark_unstable`. -/
def mark_unstable (s : St) (ab : Nat) : St :=
  s.setAndb ab { s.getAndb ab with status := .UNSTABLE }

/-- `ChoiceBox.is_determinate`: exactly one alternative remains. -/
def is_determinate (s : St) (chb : Nat) : Bool :=
  match (s.getChb chb).tried with
  | none => false
  | some ab => (s.getAndb ab).next == none

/-- Walk to the last and-box in a sibling chain. -/
def lastAndb (s : St) : Nat → Nat → Option Nat
  | 0, _ => none
  | fuel + 1, ab =>
    match (s.getAndb ab).next with
    | none => some ab
    | some nxt => lastAndb s fuel nxt

/-- Walk to the last choice-box in a sibling chain. -/
def lastChb (s : St) : Nat → Nat → Option Nat
  | 0, _ => none
  | fuel + 1, cb =>
    match (s.getChb cb).next with
    | none => some cb
    | some nxt => lastChb s fuel nxt

/-- `ChoiceBox.add_alternative`: set the father and link at the end of the
alternative chain. -/
def add_alternative (s : St) (fuel : Nat) (chb ab : Nat) : Option St :=
  let s := s.setAndb ab { s.getAndb ab with father := some chb }
  match (s.getChb chb).tried with
  | none => some (s.setChb chb { s.getChb chb with tried := some ab })
  | some first =>
    match lastAndb s fuel first with
    | none => none
    | some last =>
      let s := s.setAndb last { s.getAndb last with next := some ab }
      some (s.setAndb ab { s.getAndb ab with prev := some last })

/-- `ChoiceBox.remove_alternative`: unlink an and-box from the chain and
clear its links. -/
def remove_alternative (s : St) (chb ab : Nat) : St :=
  let s :=
    match (s.getAndb ab).prev with
    | some p => s.setAndb p { s.getAndb p with next := (s.getAndb ab).next }
    | none => s.setChb chb { s.getChb chb with tried := (s.getAndb ab).next }
  let s :=
    match (s.getAndb ab).next with
    | some n => s.setAndb n { s.getAndb n with prev := (s.getAndb ab).prev }
    | none => s
  s.setAndb ab { s.getAndb ab with father := none, next := none, prev := none }

/-- `create_choice` of `engine.py`: a choice-box under a parent and-box,
linked at the end of the parent's `tried` chain. -/
def create_choice (s : St) (fuel : Nat) (parent : Nat) (pred : Option String) :
    Option (Nat × St) :=
  let (chb, s) := newChoiceBox s (some parent) pred
  match (s.getAndb parent).tried with
  | none => some (chb, s.setAndb parent { s.getAndb parent with tried := some chb })
  | some first =>
    match lastChb s fuel first with
    | none => none
    | some last =>
      let s := s.setChb last { s.getChb last with next := some chb }
      some (chb, s.setChb chb { s.getChb chb with prev := some last })

/-- `create_alternative` of `engine.py`: allocate an and-box (its default
env included), give it a fresh env under the caller's env, and add it as
an alternative. -/
def create_alternative (s : St) (fuel : Nat) (chb : Nat) : Option (Nat × St) :=
  let (ab, s) := newAndBox s
  let parentEnv : Option Nat :=
    match (s.getChb chb).father with
    | some f => some (s.getAndb f).env
    | none => none
  let (e, s) := newEnv s parentEnv
  let s := s.setAndb ab { s.getAndb ab with env := e }
  match add_alternative s fuel chb ab with
  | none => none
  | some s => some (ab, s)

/-- `Suspension.for_andbox` plus `ConstrainedVar.add_suspension` (prepend,
like the Python linked list). -/
def add_suspension_andbox (s : St) (v ab : Nat) : St :=
  s.setVar v { s.getVar v with susps := .andbox ab :: (s.getVar v).susps }

/-- A compiled clause (`program.py`, dataclass `Clause`; the fields the
engine reads). -/
structure ClauseD where
  head : PTerm
  guard : Option PTerm := none
  guardType : GuardType := .NONE
  body : List PTerm := []

/-- A clause database (`program.py`, class `Program`): predicates keyed by
name and arity. -/
abbrev ProgramD := List ((String × Nat) × List ClauseD)

/-- `Program.get_clauses`. -/
def get_clauses (p : ProgramD) (name : String) (arity : Nat) : List ClauseD :=
  match p.find? (fun e => e.1.1 = name ∧ e.1.2 = arity) with
  | some e => e.2
  | none => []

/-- The `(name, arity)` pairs registered with `@register_builtin` in
`builtin.py`. -/
def BUILTINS : List (String × Nat) :=
  [("true", 0), ("fail", 0), ("false", 0), ("=", 2), ("\\=", 2), ("dif", 2),
   ("==", 2), ("\\==", 2), ("@<", 2), ("@>", 2), ("@=<", 2), ("@>=", 2),
   ("compare", 3), ("is", 2), ("=:=", 2), ("=\\=", 2), ("<", 2), (">", 2),
   ("=<", 2), (">=", 2), ("int_not_equal", 2), ("write", 1), ("writeln", 1),
   ("nl", 0), ("put", 1), ("consult", 1), ("load", 1), ("functor", 3),
   ("functor_to_term", 3), ("term_to_functor", 3), ("arg", 3), ("=..", 2),
   ("copy_term", 2), ("var", 1), ("nonvar", 1), ("data", 1), ("atom", 1),
   ("number", 1), ("integer", 1), ("float", 1), ("compound", 1),
   ("is_list", 1), ("atomic", 1), ("length", 2), ("stdin", 1), ("stdout", 1),
   ("fflush", 1), ("getc", 2), ("read_term", 2), ("format", 1), ("format", 2),
   ("fnl", 1), ("reflective_call", 3), ("reflective_next", 2),
   ("reflective_print", 2), ("reflection", 1), ("numberof", 2),
   ("open_port", 2), ("send", 2), ("send", 3), ("statistics", 2)]

/-- `is_builtin` of `builtin.py`. -/
def is_builtin (name : String) (arity : Nat) : Bool :=
  BUILTINS.contains (name, arity)

/-- `call_builtin` of `builtin.py`, restricted to the pure builtins whose
effects are inside the model; an arithmetic builtin whose Python exception
would escape, and the I/O, meta and reflection builtins, yield `none`. -/
def call_builtin (s : St) (fuel : Nat) (name : String) (arity : Nat)
    (args : List PTerm) : Option (Bool × St) :=
  match name, arity, args with
  | "true", 0, _ => some (true, s)
  | "fail", 0, _ => some (false, s)
  | "false", 0, _ => some (false, s)
  | "=", 2, [a, b] => unifyF s fuel a b false
  | "\\=", 2, [a, b] =>
    -- save the trail position, try to unify, undo, succeed on failure
    (match unifyF s fuel a b false with
     | none => none
     | some (r, s') => some (!r, undoTrailTo s' s.trail.length))
  | "dif", 2, [a, b] =>
    (match unifyF s fuel a b false with
     | none => none
     | some (r, s') => some (!r, undoTrailTo s' s.trail.length))
  | "==", 2, [a, b] =>
    (match deref s fuel a, deref s fuel b with
     | some a', some b' => (identicalF s fuel a' b').map (fun r => (r, s))
     | _, _ => none)
  | "\\==", 2, [a, b] =>
    (match deref s fuel a, deref s fuel b with
     | some a', some b' => (identicalF s fuel a' b').map (fun r => (!r, s))
     | _, _ => none)
  | "is", 2, [a, b] =>
    (match builtin_is s fuel a b with
     | some (.ok p) => some p
     | _ => none)
  | "<", 2, [a, b] =>
    (match builtin_lt s fuel a b with
     | some (.ok p) => some p
     | _ => none)
  | ">", 2, [a, b] =>
    (match builtin_gt s fuel a b with
     | some (.ok p) => some p
     | _ => none)
  | "=<", 2, [a, b] =>
    (match builtin_le s fuel a b with
     | some (.ok p) => some p
     | _ => none)
  | ">=", 2, [a, b] =>
    (match builtin_ge s fuel a b with
     | some (.ok p) => some p
     | _ => none)
  | "=:=", 2, [a, b] =>
    (match builtin_arith_eq s fuel a b with
     | some (.ok p) => some p
     | _ => none)
  | "=\\=", 2, [a, b] =>
    (match builtin_arith_neq s fuel a b with
     | some (.ok p) => some p
     | _ => none)
  | "var", 1, [a] =>
    (deref s fuel a).map (fun t => ((match t with | .var _ => true | _ => false), s))
  | "nonvar", 1, [a] =>
    (deref s fuel a).map (fun t => ((match t with | .var _ => false | _ => true), s))
  | "data", 1, [a] =>
    (deref s fuel a).map (fun t => ((match t with | .var _ => false | _ => true), s))
  | "atom", 1, [a] =>
    (deref s fuel a).map (fun t =>
      ((match t with | .atom nm => nm ≠ "[]" | _ => false), s))
  | "number", 1, [a] =>
    (deref s fuel a).map (fun t =>
      ((match t with | .int _ => true | .float _ => true | _ => false), s))
  | "integer", 1, [a] =>
    (deref s fuel a).map (fun t => ((match t with | .int _ => true | _ => false), s))
  | "float", 1, [a] =>
    (deref s fuel a).map (fun t => ((match t with | .float _ => true | _ => false), s))
  | "compound", 1, [a] =>
    (deref s fuel a).map (fun t =>
      ((match t with | .struct _ _ => true | .cons _ _ => true | _ => false), s))
  | "atomic", 1, [a] =>
    (deref s fuel a).map (fun t =>
      ((match t with | .atom _ => true | .int _ => true | .float _ => true
                     | _ => false), s))
  | "is_list", 1, [a] =>
    (match deref s fuel a with
     | none => none
     | some t =>
       (match listToPyGo s fuel t with
        | none => none
        | some r => some (r.isSome, s)))
  | "length", 2, [a, b] => builtin_length s fuel a b
  | "=..", 2, [a, b] => builtin_univ s fuel a b
  | _, _, _ => none

/-! ## Clause instantiation and worker helpers (`akl_engine.py`) -/

mutual
/-- The inner `copy_term` of `AKLWorker._copy_clause`: clause variables are
replaced by fresh `ConstrainedVar`s in the new env, keyed by *name*;
anonymous (`_`) variables get a fresh cell per occurrence named by the
clause-local counter. -/
def copy_clause_term (s : St) (env : Nat) :
    Nat → PTerm → List (String × Nat) → Nat →
    Option (PTerm × List (String × Nat) × Nat × St)
  | 0, _, _, _ => none
  | fuel + 1, t, vmap, anon =>
    match deref s fuel t with
    | none => none
    | some t =>
      match t with
      | .var n =>
        let nm := (s.getVar n).name
        if nm = "_" then
          let (v, s) := allocVar s (some ("_G" ++ toString (anon + 1))) true (some env)
          some (.var v, vmap, anon + 1, s)
        else
          match vmap.find? (fun e => e.1 = nm) with
          | some e => some (.var e.2, vmap, anon, s)
          | none =>
            let (v, s) := allocVar s (some nm) true (some env)
            some (.var v, vmap ++ [(nm, v)], anon, s)
      | .atom a => some (.atom a, vmap, anon, s)
      | .int z => some (.int z, vmap, anon, s)
      | .float q => some (.float q, vmap, anon, s)
      | .struct f args =>
        (match copy_clause_args s env fuel args vmap anon with
         | none => none
         | some (args', vmap, anon, s) => some (.struct f args', vmap, anon, s))
      | .cons h tl =>
        (match copy_clause_term s env fuel h vmap anon with
         | none => none
         | some (h', vmap, anon, s) =>
           match copy_clause_term s env fuel tl vmap anon with
           | none => none
           | some (tl', vmap, anon, s) => some (.cons h' tl', vmap, anon, s))

/-- Argument-list recursion of the clause copier. -/
def copy_clause_args (s : St) (env : Nat) :
    Nat → List PTerm → List (String × Nat) → Nat →
    Option (List PTerm × List (String × Nat) × Nat × St)
  | 0, _, _, _ => none
  | _ + 1, [], vmap, anon => some ([], vmap, anon, s)
  | fuel + 1, a :: as, vmap, anon =>
    match copy_clause_term s env fuel a vmap anon with
    | none => none
    | some (a', vmap, anon, s) =>
      match copy_clause_args s env fuel as vmap anon with
      | none => none
      | some (as', vmap, anon, s) => some (a' :: as', vmap, anon, s)
end

/-- The goal list of the clause body, copied under one shared variable
map. -/
def copy_clause_body (s : St) (env : Nat) :
    Nat → List PTerm → List (String × Nat) → Nat →
    Option (List PTerm × List (String × Nat) × Nat × St)
  | 0, _, _, _ => none
  | _ + 1, [], vmap, anon => some ([], vmap, anon, s)
  | fuel + 1, g :: gs, vmap, anon =>
    match copy_clause_term s env fuel g vmap anon with
    | none => none
    | some (g', vmap, anon, s) =>
      match copy_clause_body s env fuel gs vmap anon with
      | none => none
      | some (gs', vmap, anon, s) => some (g' :: gs', vmap, anon, s)

/-- `AKLWorker._copy_clause`: fresh head, guard and body sharing one
name-keyed variable map. -/
def copy_clause (s : St) (fuel : Nat) (c : ClauseD) (env : Nat) :
    Option (PTerm × Option PTerm × List PTerm × St) :=
  match copy_clause_term s env fuel c.head [] 0 with
  | none => none
  | some (head', vmap, anon, s) =>
    match c.guard with
    | some g =>
      (match copy_clause_term s env fuel g vmap anon with
       | none => none
       | some (g', vmap, anon, s) =>
         match copy_clause_body s env fuel c.body vmap anon with
         | none => none
         | some (body', _, _, s) => some (head', some g', body', s))
    | none =>
      match copy_clause_body s env fuel c.body vmap anon with
      | none => none
      | some (body', _, _, s) => some (head', none, body', s)

mutual
/-- `AKLWorker._copy_term_to_local`: every variable of the call is replaced
(keyed by cell identity) by a fresh local `ConstrainedVar`; the pair
`(externalVar, localVar)` is recorded on the and-box's unifier list and the
local cell is remembered by the `_<name>_local` key; the true anonymous
variable gets a fresh cell each time. -/
def copy_term_to_local (s : St) (ab : Nat) :
    Nat → PTerm → List (Nat × Nat) → Option (PTerm × List (Nat × Nat) × St)
  | 0, _, _ => none
  | fuel + 1, t, vmap =>
    match deref s fuel t with
    | none => none
    | some t =>
      match t with
      | .var n =>
        if (s.getVar n).name = "_" then
          let (v, s) := allocVar s none true (some (s.getAndb ab).env)
          some (.var v, vmap, s)
        else
          match vmap.find? (fun e => e.1 = n) with
          | some e => some (.var e.2, vmap, s)
          | none =>
            let localName := "_" ++ (s.getVar n).name ++ "_local"
            let (v, s) := allocVar s (some localName) true (some (s.getAndb ab).env)
            let s := s.setAndb ab
              { s.getAndb ab with
                localVars := (s.getAndb ab).localVars ++ [(localName, v)],
                unifiers := (s.getAndb ab).unifiers ++ [(.var n, .var v)] }
            some (.var v, vmap ++ [(n, v)], s)
      | .atom a => some (.atom a, vmap, s)
      | .int z => some (.int z, vmap, s)
      | .float q => some (.float q, vmap, s)
      | .struct f args =>
        (match copy_term_to_local_args s ab fuel args vmap with
         | none => none
         | some (args', vmap, s) => some (.struct f args', vmap, s))
      | .cons h tl =>
        (match copy_term_to_local s ab fuel h vmap with
         | none => none
         | some (h', vmap, s) =>
           match copy_term_to_local s ab fuel tl vmap with
           | none => none
           | some (tl', vmap, s) => some (.cons h' tl', vmap, s))

/-- Argument recursion of `_copy_term_to_local`. -/
def copy_term_to_local_args (s : St) (ab : Nat) :
    Nat → List PTerm → List (Nat × Nat) →
    Option (List PTerm × List (Nat × Nat) × St)
  | 0, _, _ => none
  | _ + 1, [], vmap => some ([], vmap, s)
  | fuel + 1, a :: as, vmap =>
    match copy_term_to_local s ab fuel a vmap with
    | none => none
    | some (a', vmap, s) =>
      match copy_term_to_local_args s ab fuel as vmap with
      | none => none
      | some (as', vmap, s) => some (a' :: as', vmap, s)
end

mutual
/-- `AKLWorker._collect_query_vars`: named variables of the query that do
not start with an underscore, in first-occurrence order. -/
def collect_query_vars (s : St) : Nat → PTerm → Option St
  | 0, _ => none
  | fuel + 1, t =>
    match deref s fuel t with
    | none => none
    | some t =>
      match t with
      | .var n =>
        let nm := (s.getVar n).name
        if nm ≠ "" ∧ nm ≠ "_" ∧ nm.data.head? ≠ some '_' then
          if (s.queryVars.find? (fun e => e.1 = nm)).isSome then some s
          else some { s with queryVars := s.queryVars ++ [(nm, n)] }
        else some s
      | .struct _ args => collect_query_vars_list s fuel args
      | .cons h tl =>
        (match collect_query_vars s fuel h with
         | none => none
         | some s => collect_query_vars s fuel tl)
      | _ => some s

/-- Argument recursion of `_collect_query_vars`. -/
def collect_query_vars_list (s : St) : Nat → List PTerm → Option St
  | 0, _ => none
  | _ + 1, [] => some s
  | fuel + 1, a :: as =>
    match collect_query_vars s fuel a with
    | none => none
    | some s => collect_query_vars_list s fuel as
end

mutual
/-- `AKLWorker._deref_term` (also `_ground_copy`): rebuild a term following
all bindings. -/
def deref_term (s : St) : Nat → PTerm → Option PTerm
  | 0, _ => none
  | fuel + 1, t =>
    match deref s fuel t with
    | none => none
    | some t =>
      match t with
      | .var n => some (.var n)
      | .atom a => some (.atom a)
      | .int z => some (.int z)
      | .float q => some (.float q)
      | .struct f args =>
        (match deref_term_list s fuel args with
         | none => none
         | some args' => some (.struct f args'))
      | .cons h tl =>
        (match deref_term s fuel h with
         | none => none
         | some h' =>
           match deref_term s fuel tl with
           | none => none
           | some tl' => some (.cons h' tl'))

/-- Argument recursion of `_deref_term`. -/
def deref_term_list (s : St) : Nat → List PTerm → Option (List PTerm)
  | 0, _ => none
  | _ + 1, [] => some []
  | fuel + 1, a :: as =>
    match deref_term s fuel a with
    | none => none
    | some a' =>
      match deref_term_list s fuel as with
      | none => none
      | some as' => some (a' :: as')
end

/-- The deferred-unifier walk of `_record_solution`: this and-box's
unifiers, then the grandparent's, up to the root. -/
def collect_unifiers (s : St) : Nat → Nat → Option (List (PTerm × PTerm))
  | 0, _ => none
  | fuel + 1, cur =>
    let u := (s.getAndb cur).unifiers
    match (s.getAndb cur).father with
    | some f =>
      (match (s.getChb f).father with
       | some gf =>
         (match collect_unifiers s fuel gf with
          | none => none
          | some rest => some (u ++ rest))
       | none => some u)
    | none => some u

/-- `var_to_value[id(var)] = value` over all collected unifiers: later
entries overwrite earlier ones; keys of non-variable first components can
never be looked up through a variable and are dropped. -/
def build_var_map : List (PTerm × PTerm) → List (Nat × PTerm) → List (Nat × PTerm)
  | [], acc => acc
  | (var, value) :: rest, acc =>
    match var with
    | .var n =>
      build_var_map rest ((acc.filter (fun e => e.1 ≠ n)) ++ [(n, value)])
    | _ => build_var_map rest acc

/-- The `resolve` closure of `_record_solution`: follow the binding, then
the deferred-unifier chain, with a visited set against cycles. -/
def resolveQ (s : St) (vmap : List (Nat × PTerm)) :
    Nat → Nat → List Nat → Option PTerm
  | 0, _, _ => none
  | fuel + 1, v, visited =>
    if v ∈ visited then some (.var v)
    else
      match deref s fuel (.var v) with
      | none => none
      | some val =>
        if val ≠ .var v then some val
        else
          match vmap.find? (fun e => e.1 = v) with
          | some e =>
            (match deref s fuel e.2 with
             | none => none
             | some nv =>
               match nv with
               | .var n2 => resolveQ s vmap fuel n2 (v :: visited)
               | _ => some nv)
          | none => some (.var v)

/-- The query-variable loop of `_record_solution`. -/
def record_bindings (s : St) (vmap : List (Nat × PTerm)) :
    Nat → List (String × Nat) → Option (List (String × PTerm))
  | 0, _ => none
  | _ + 1, [] => some []
  | fuel + 1, (nm, qv) :: rest =>
    match resolveQ s vmap fuel qv [] with
    | none => none
    | some val =>
      match record_bindings s vmap fuel rest with
      | none => none
      | some acc =>
        if val = .var qv then some acc
        else
          match deref_term s fuel val with
          | none => none
          | some g => some ((nm, g) :: acc)

/-- `AKLWorker._record_solution`. -/
def record_solution (s : St) (fuel : Nat) (ab : Nat) : Option St :=
  match collect_unifiers s fuel ab with
  | none => none
  | some alls =>
    let vmap := build_var_map alls []
    match record_bindings s vmap fuel s.queryVars with
    | none => none
    | some bnd => some { s with solutions := s.solutions ++ [bnd] }

mutual
/-- `AKLWorker._rehome_term_var`: move the env pointer of constrained
variables from the promoted env to the parent env, through the (derefed)
term structure. -/
def rehome_term_var (s : St) (oldEnv newEnv : Nat) : Nat → PTerm → Option St
  | 0, _ => none
  | fuel + 1, t =>
    match deref s fuel t with
    | none => none
    | some t =>
      match t with
      | .var n =>
        if (s.getVar n).constrained ∧ (s.getVar n).env = some oldEnv then
          some (s.setVar n { s.getVar n with env := some newEnv })
        else some s
      | .struct _ args => rehome_term_args s oldEnv newEnv fuel args
      | .cons h tl =>
        (match rehome_term_var s oldEnv newEnv fuel h with
         | none => none
         | some s => rehome_term_var s oldEnv newEnv fuel tl)
      | _ => some s

/-- Argument recursion of `_rehome_term_var`. -/
def rehome_term_args (s : St) (oldEnv newEnv : Nat) : Nat → List PTerm → Option St
  | 0, _ => none
  | _ + 1, [] => some s
  | fuel + 1, a :: as =>
    match rehome_term_var s oldEnv newEnv fuel a with
    | none => none
    | some s => rehome_term_args s oldEnv newEnv fuel as
end

/-- The local-variable loop of `AKLWorker._rehome_local_vars`. -/
def rehome_locals_loop (s : St) (abEnv parentEnv : Nat) (parent : Nat) :
    List (String × Nat) → St
  | [] => s
  | (nm, v) :: rest =>
    let s :=
      if (s.getVar v).constrained ∧ (s.getVar v).env = some abEnv then
        let s := s.setVar v { s.getVar v with env := some parentEnv }
        if ((s.getAndb parent).localVars.find? (fun e => e.1 = nm)).isSome then s
        else s.setAndb parent
          { s.getAndb parent with localVars := (s.getAndb parent).localVars ++ [(nm, v)] }
      else s
    rehome_locals_loop s abEnv parentEnv parent rest

/-- `AKLWorker._rehome_local_vars`. -/
def rehome_local_vars (s : St) (fuel : Nat) (ab parent : Nat) : Option St :=
  let abEnv := (s.getAndb ab).env
  let s := rehome_locals_loop s abEnv (s.getAndb parent).env parent
    (s.getAndb ab).localVars
  match (s.getAndb ab).bodyGoals with
  | some bg =>
    if bg ≠ [] then rehome_term_args s abEnv (s.getAndb parent).env fuel bg
    else some s
  | none => some s

/-- The deferred-unifier loop of `AKLWorker._promote_andbox`: pairs no
longer external to the parent are unified now (a failure marks the parent
dead and stops); pairs still external are forwarded to the parent's
list. -/
def discharge_unifiers (s : St) (fuel : Nat) (parent : Nat) :
    List (PTerm × PTerm) → Option (Bool × St)
  | [] => some (true, s)
  | (var, value) :: rest =>
    match deref s fuel value with
    | none => none
    | some resolved =>
      match (match var with
             | .var n => is_external_var s fuel n parent
             | _ => some false) with
      | none => none
      | some ext =>
        if ext then
          let s := s.setAndb parent
            { s.getAndb parent with
              unifiers := (s.getAndb parent).unifiers ++ [(var, resolved)] }
          discharge_unifiers s fuel parent rest
        else
          match unifyF s fuel var resolved false with
          | none => none
          | some (true, s) => discharge_unifiers s fuel parent rest
          | some (false, s) => some (false, mark_dead s parent)

/-- `AKLWorker._prune_siblings` for `COMMIT`: kill every other
alternative. -/
def prune_all_siblings (s : St) (keep : Nat) : Nat → Option Nat → Option St
  | 0, _ => none
  | _ + 1, none => some s
  | fuel + 1, some alt =>
    let s := if alt ≠ keep then mark_dead s alt else s
    prune_all_siblings s keep fuel (s.getAndb alt).next

/-- `AKLWorker._prune_siblings` for `ARROW` and `CUT`: kill the right
siblings. -/
def prune_right_siblings (s : St) : Nat → Option Nat → Option St
  | 0, _ => none
  | _ + 1, none => some s
  | fuel + 1, some alt =>
    let s := mark_dead s alt
    prune_right_siblings s fuel (s.getAndb alt).next

/-- `AKLWorker._prune_siblings`. -/
def prune_siblings (s : St) (fuel : Nat) (ab : Nat) (gt : GuardType) : Option St :=
  match (s.getAndb ab).father with
  | none => some s
  | some chb =>
    if gt = .COMMIT then
      prune_all_siblings s ab fuel (s.getChb chb).tried
    else if gt = .ARROW ∨ gt = .CUT then
      prune_right_siblings s fuel (s.getAndb ab).next
    else some s

/-- The wait-guard set of `akl_engine.py` (`WAIT_GUARDS`). -/
def in_wait_guards : GuardType → Bool
  | .WAIT => true
  | .QUIET_WAIT => true
  | _ => false

/-- `AKLWorker._is_candidate`: solved with no goals, under a
non-determinate choice-box whose remembered guard type (`getattr` default
`NONE`) is a wait guard or `NONE`. -/
def is_candidate (s : St) (ab chb : Nat) : Bool :=
  if ¬is_solved s ab ∨ (s.getAndb ab).goals ≠ [] then false
  else if is_determinate s chb then false
  else
    let gt := (s.getChb chb).guardType.getD .NONE
    if ¬in_wait_guards gt ∧ gt ≠ .NONE then false
    else true

mutual
/-- `AKLWorker._find_candidate`: depth-first, left-to-right search for the
leftmost splittable and-box under `ab`. -/
def find_candidate (s : St) : Nat → Nat → Option (Option Nat)
  | 0, _ => none
  | fuel + 1, ab => find_candidate_chb s fuel (s.getAndb ab).tried

/-- The choice-box loop of `_find_candidate`. -/
def find_candidate_chb (s : St) : Nat → Option Nat → Option (Option Nat)
  | 0, _ => none
  | _ + 1, none => some none
  | fuel + 1, some chb =>
    match find_candidate_alt s fuel (s.getChb chb).tried chb with
    | none => none
    | some (some c) => some (some c)
    | some none => find_candidate_chb s fuel (s.getChb chb).next

/-- The alternative loop of `_find_candidate`. -/
def find_candidate_alt (s : St) : Nat → Option Nat → Nat → Option (Option Nat)
  | 0, _, _ => none
  | _ + 1, none, _ => some none
  | fuel + 1, some alt, chb =>
    if is_dead s alt then find_candidate_alt s fuel (s.getAndb alt).next chb
    else if is_candidate s alt chb then some (some alt)
    else
      match find_candidate s fuel alt with
      | none => none
      | some (some c) => some (some c)
      | some none => find_candidate_alt s fuel (s.getAndb alt).next chb
end

/-- `AKLWorker._find_copied_fork`: positional walk over the two `tried`
chains. -/
def find_copied_fork (s : St) :
    Nat → Option Nat → Option Nat → Nat → Option (Option Nat)
  | 0, _, _, _ => none
  | _ + 1, none, _, _ => some none
  | _ + 1, some _, none, _ => some none
  | fuel + 1, some copyF, some origF, target =>
    if origF = target then some (some copyF)
    else find_copied_fork s fuel (s.getChb copyF).next (s.getChb origF).next target

/-- `AKLWorker._find_copied_candidate`: positional walk over the two
alternative chains. -/
def find_copied_candidate (s : St) :
    Nat → Option Nat → Option Nat → Nat → Option (Option Nat)
  | 0, _, _, _ => none
  | _ + 1, none, _, _ => some none
  | _ + 1, some _, none, _ => some none
  | fuel + 1, some copyA, some origA, target =>
    if origA = target then some (some copyA)
    else find_copied_candidate s fuel (s.getAndb copyA).next (s.getAndb origA).next target

/-- The removal loop of `AKLWorker._cleanup_dead_alternatives`. -/
def cleanup_dead_loop (s : St) (chb : Nat) : Nat → Option Nat → Option St
  | 0, _ => none
  | _ + 1, none => some s
  | fuel + 1, some alt =>
    let nxt := (s.getAndb alt).next
    let s := if is_dead s alt then remove_alternative s chb alt else s
    cleanup_dead_loop s chb fuel nxt

/-- `AKLWorker._cleanup_dead_alternatives`. -/
def cleanup_dead_alternatives (s : St) (fuel : Nat) (chb : Nat) : Option St :=
  cleanup_dead_loop s chb fuel (s.getChb chb).tried

/-! ## And-box copying (`copy.py`) -/

/-- `CopyState` of `copy.py`: identity maps from originals to copies, and
the mother and-box of the copied subtree. -/
structure CopySt where
  mother : Nat
  andboxMap : List (Nat × Nat) := []
  choiceboxMap : List (Nat × Nat) := []
  varMap : List (Nat × Nat) := []
  envMap : List (Nat × Nat) := []

/-- `CopyState.is_local_env`: the env is, or descends from, the mother's
env. -/
def copy_is_local_env (s : St) (fuel : Nat) (motherAb : Nat) (env : Option Nat) :
    Option Bool :=
  match env with
  | none => some false
  | some e =>
    (is_ancestor_of s fuel (s.getAndb motherAb).env e).map
      (fun b => b || e = (s.getAndb motherAb).env)

/-- `_copy_env`: new `EnvId`s for local environments (with copied parent
chains), shared external ones. -/
def copy_env (s : St) (cst : CopySt) : Nat → Option Nat → Option (Option Nat × St × CopySt)
  | 0, _ => none
  | _ + 1, none => some (none, s, cst)
  | fuel + 1, some e =>
    match copy_is_local_env s fuel cst.mother (some e) with
    | none => none
    | some false => some (some e, s, cst)
    | some true =>
      match cst.envMap.find? (fun m => m.1 = e) with
      | some m => some (some m.2, s, cst)
      | none =>
        match copy_env s cst fuel (s.envs.getD e none) with
        | none => none
        | some (pOpt, s, cst) =>
          let (ne, s) := newEnv s pOpt
          some (some ne, s, { cst with envMap := cst.envMap ++ [(e, ne)] })

mutual
/-- `_copy_term` of `copy.py`: dereference; local constrained variables get
fresh cells (keyed by identity, envs copied, bindings copied), everything
external or immutable is shared; structures and cons cells are rebuilt. -/
def copy_term_c (s : St) (cst : CopySt) : Nat → PTerm → Option (PTerm × St × CopySt)
  | 0, _ => none
  | fuel + 1, t =>
    match deref s fuel t with
    | none => none
    | some t =>
      match t with
      | .var n =>
        (match copy_is_local_env s fuel cst.mother (s.getVar n).env with
         | none => none
         | some isLocal =>
           if (s.getVar n).constrained && isLocal then
             match cst.varMap.find? (fun m => m.1 = n) with
             | some m => some (.var m.2, s, cst)
             | none =>
               match copy_env s cst fuel (s.getVar n).env with
               | none => none
               | some (ne, s, cst) =>
                 let (nv, s) := allocVar s (some (s.getVar n).name) true ne
                 let cst := { cst with varMap := cst.varMap ++ [(n, nv)] }
                 match (s.getVar n).binding with
                 | some b =>
                   (match copy_term_c s cst fuel b with
                    | none => none
                    | some (b', s, cst) =>
                      some (.var nv, s.setVar nv { s.getVar nv with binding := some b' }, cst))
                 | none => some (.var nv, s, cst)
           else some (.var n, s, cst))
      | .atom a => some (.atom a, s, cst)
      | .int z => some (.int z, s, cst)
      | .float q => some (.float q, s, cst)
      | .struct f args =>
        (match copy_term_list_c s cst fuel args with
         | none => none
         | some (args', s, cst) => some (.struct f args', s, cst))
      | .cons h tl =>
        (match copy_term_c s cst fuel h with
         | none => none
         | some (h', s, cst) =>
           match copy_term_c s cst fuel tl with
           | none => none
           | some (tl', s, cst) => some (.cons h' tl', s, cst))

/-- List recursion of `_copy_term`. -/
def copy_term_list_c (s : St) (cst : CopySt) :
    Nat → List PTerm → Option (List PTerm × St × CopySt)
  | 0, _ => none
  | _ + 1, [] => some ([], s, cst)
  | fuel + 1, a :: as =>
    match copy_term_c s cst fuel a with
    | none => none
    | some (a', s, cst) =>
      match copy_term_list_c s cst fuel as with
      | none => none
      | some (as', s, cst) => some (a' :: as', s, cst)

/-- `_copy_local_var`: a fresh `ConstrainedVar` in the supplied env (even
for a plain `Var` original), with the binding copied. -/
def copy_local_var (s : St) (cst : CopySt) :
    Nat → Nat → Nat → Option (Nat × St × CopySt)
  | 0, _, _ => none
  | fuel + 1, v, newEnvIdx =>
    match cst.varMap.find? (fun m => m.1 = v) with
    | some m => some (m.2, s, cst)
    | none =>
      let (nv, s) := allocVar s (some (s.getVar v).name) true (some newEnvIdx)
      let cst := { cst with varMap := cst.varMap ++ [(v, nv)] }
      match (s.getVar v).binding with
      | some b =>
        (match copy_term_c s cst fuel b with
         | none => none
         | some (b', s, cst) =>
           some (nv, s.setVar nv { s.getVar nv with binding := some b' }, cst))
      | none => some (nv, s, cst)

/-- The local-variable loop of `_copy_andbox`. -/
def copy_localvars_c (s : St) (cst : CopySt) :
    Nat → List (String × Nat) → Nat → Option (List (String × Nat) × St × CopySt)
  | 0, _, _ => none
  | _ + 1, [], _ => some ([], s, cst)
  | fuel + 1, (nm, v) :: rest, newEnvIdx =>
    match copy_local_var s cst fuel v newEnvIdx with
    | none => none
    | some (nv, s, cst) =>
      match copy_localvars_c s cst fuel rest newEnvIdx with
      | none => none
      | some (rest', s, cst) => some ((nm, nv) :: rest', s, cst)

/-- The unifier-list copy of `_copy_andbox`. -/
def copy_unifiers_c (s : St) (cst : CopySt) :
    Nat → List (PTerm × PTerm) → Option (List (PTerm × PTerm) × St × CopySt)
  | 0, _ => none
  | _ + 1, [] => some ([], s, cst)
  | fuel + 1, (t1, t2) :: rest =>
    match copy_term_c s cst fuel t1 with
    | none => none
    | some (t1', s, cst) =>
      match copy_term_c s cst fuel t2 with
      | none => none
      | some (t2', s, cst) =>
        match copy_unifiers_c s cst fuel rest with
        | none => none
        | some (rest', s, cst) => some ((t1', t2') :: rest', s, cst)

/-- `_copy_andbox`: allocate (registering the copy in the identity map
before recursing), then copy status, env, local variables, goals, body
goals (`[]` when absent), unifiers, constraints and the child choice-box
chain. -/
def copy_andbox_c (s : St) (cst : CopySt) : Nat → Nat → Option (Nat × St × CopySt)
  | 0, _ => none
  | fuel + 1, ab =>
    match cst.andboxMap.find? (fun m => m.1 = ab) with
    | some m => some (m.2, s, cst)
    | none =>
      let (nab, s) := newAndBox s
      let cst := { cst with andboxMap := cst.andboxMap ++ [(ab, nab)] }
      let s := s.setAndb nab { s.getAndb nab with status := (s.getAndb ab).status }
      match copy_env s cst fuel (some (s.getAndb ab).env) with
      | none => none
      | some (neOpt, s, cst) =>
        match neOpt with
        | none => none
        | some ne =>
          let s := s.setAndb nab { s.getAndb nab with env := ne }
          match copy_localvars_c s cst fuel (s.getAndb ab).localVars ne with
          | none => none
          | some (lv', s, cst) =>
            let s := s.setAndb nab { s.getAndb nab with localVars := lv' }
            match copy_term_list_c s cst fuel (s.getAndb ab).goals with
            | none => none
            | some (goals', s, cst) =>
              let s := s.setAndb nab { s.getAndb nab with goals := goals' }
              match (match (s.getAndb ab).bodyGoals with
                     | some bg =>
                       if bg ≠ [] then copy_term_list_c s cst fuel bg
                       else some ([], s, cst)
                     | none => some ([], s, cst)) with
              | none => none
              | some (bg', s, cst) =>
                let s := s.setAndb nab { s.getAndb nab with bodyGoals := some bg' }
                match copy_unifiers_c s cst fuel (s.getAndb ab).unifiers with
                | none => none
                | some (u', s, cst) =>
                  let s := s.setAndb nab
                    { s.getAndb nab with
                      unifiers := u',
                      constraints := (s.getAndb ab).constraints }
                  match (s.getAndb ab).tried with
                  | none => some (nab, s, cst)
                  | some firstChb =>
                    match copy_choicebox_chain_c s cst fuel firstChb nab with
                    | none => none
                    | some (nf, s, cst) =>
                      some (nab, s.setAndb nab { s.getAndb nab with tried := some nf }, cst)

/-- `_copy_choicebox`: allocate, register, keep the shared predicate,
copy the alternative chain. -/
def copy_choicebox_c (s : St) (cst : CopySt) :
    Nat → Nat → Nat → Option (Nat × St × CopySt)
  | 0, _, _ => none
  | fuel + 1, chb, parentAb =>
    match cst.choiceboxMap.find? (fun m => m.1 = chb) with
    | some m => some (m.2, s, cst)
    | none =>
      let (nchb, s) := newChoiceBox s (some parentAb) (s.getChb chb).predicate
      let cst := { cst with choiceboxMap := cst.choiceboxMap ++ [(chb, nchb)] }
      match (s.getChb chb).tried with
      | none => some (nchb, s, cst)
      | some firstAb =>
        match copy_andbox_chain_c s cst fuel firstAb nchb with
        | none => none
        | some (nf, s, cst) =>
          some (nchb, s.setChb nchb { s.getChb nchb with tried := some nf }, cst)

/-- `_copy_andbox_chain`: copy each sibling, set its father, and link the
copies in order; returns the first copy. -/
def copy_andbox_chain_c (s : St) (cst : CopySt) :
    Nat → Nat → Nat → Option (Nat × St × CopySt)
  | 0, _, _ => none
  | fuel + 1, ab, parentChb =>
    match copy_andbox_c s cst fuel ab with
    | none => none
    | some (nab, s, cst) =>
      let s := s.setAndb nab { s.getAndb nab with father := some parentChb }
      match (s.getAndb ab).next with
      | none => some (nab, s, cst)
      | some nxt =>
        match copy_andbox_chain_c s cst fuel nxt parentChb with
        | none => none
        | some (nrest, s, cst) =>
          let s := s.setAndb nab { s.getAndb nab with next := some nrest }
          let s := s.setAndb nrest { s.getAndb nrest with prev := some nab }
          some (nab, s, cst)

/-- `_copy_choicebox_chain`. -/
def copy_choicebox_chain_c (s : St) (cst : CopySt) :
    Nat → Nat → Nat → Option (Nat × St × CopySt)
  | 0, _, _ => none
  | fuel + 1, chb, parentAb =>
    match copy_choicebox_c s cst fuel chb parentAb with
    | none => none
    | some (nchb, s, cst) =>
      match (s.getChb chb).next with
      | none => some (nchb, s, cst)
      | some nxt =>
        match copy_choicebox_chain_c s cst fuel nxt parentAb with
        | none => none
        | some (nrest, s, cst) =>
          let s := s.setChb nchb { s.getChb nchb with next := some nrest }
          let s := s.setChb nrest { s.getChb nrest with prev := some nchb }
          some (nchb, s, cst)
end

/-- `copy_andbox_subtree` of `copy.py` (`_update_suspensions` is a
placeholder `pass` in the source). -/
def copy_andbox_subtree (s : St) (fuel : Nat) (mother : Nat) : Option (Nat × St) :=
  match copy_andbox_c s { mother := mother } fuel mother with
  | none => none
  | some (copyAb, s, _) => some (copyAb, s)

/-- `AKLWorker._add_unifier`: append the deferred pair and register a
suspension on a constrained variable. -/
def add_unifier_m (s : St) (ab : Nat) (var value : PTerm) : St :=
  let s := s.setAndb ab
    { s.getAndb ab with unifiers := (s.getAndb ab).unifiers ++ [(var, value)] }
  match var with
  | .var n =>
    if (s.getVar n).constrained then add_suspension_andbox s n ab else s
  | _ => s

/-- `AKLWorker._try_unification`: a dereferenced side that is a variable
external to the and-box is not bound; the pair goes to the deferred list
and the and-box becomes unstable.  Otherwise plain unification runs. -/
def try_unification (s : St) (fuel : Nat) (ab : Nat) (t1 t2 : PTerm) :
    Option (Bool × St) :=
  match deref s fuel t1, deref s fuel t2 with
  | some t1', some t2' =>
    (match (match t1' with
            | .var n => is_external_var s fuel n ab
            | _ => some false) with
     | none => none
     | some e1 =>
       if e1 then
         some (true, mark_unstable (add_unifier_m s ab t1' t2') ab)
       else
         match (match t2' with
                | .var n => is_external_var s fuel n ab
                | _ => some false) with
         | none => none
         | some e2 =>
           if e2 then
             some (true, mark_unstable (add_unifier_m s ab t2' t1') ab)
           else unifyF s fuel t1' t2' false)
  | _, _ => none

/-- The per-clause loop of `AKLWorker._expand_predicate`: a fresh
alternative per clause, the clause copied with fresh variables, the call
copied to local variables, the head unification and the guard queued, the
body stored out of band. -/
def expand_clauses (s : St) (fuel : Nat) :
    List ClauseD → Nat → PTerm → Option St
  | [], _, _ => some s
  | c :: cs, chb, goal =>
    match create_alternative s fuel chb with
    | none => none
    | some (alt, s) =>
      match copy_clause s fuel c (s.getAndb alt).env with
      | none => none
      | some (head', guard', body', s) =>
        match copy_term_to_local s alt fuel goal [] with
        | none => none
        | some (localGoal, _, s) =>
          let ug := PTerm.struct "=" [localGoal, head']
          let s := s.setAndb alt
            { s.getAndb alt with
              goals := (s.getAndb alt).goals ++ [ug] ++
                (match guard' with | some g => [g] | none => []),
              bodyGoals := some body' }
          expand_clauses s fuel cs chb goal

/-- The sibling-removal loop of `AKLWorker._do_split`: keep only the
copied candidate (`remove_alternative` then `mark_dead`, reading the
`next` link first). -/
def remove_copy_siblings (s : St) : Nat → Nat → Nat → Option Nat → Option St
  | 0, _, _, _ => none
  | _ + 1, _, _, none => some s
  | fuel + 1, copyFork, keep, some alt =>
    let nxt := (s.getAndb alt).next
    let s := if alt ≠ keep then mark_dead (remove_alternative s copyFork alt) alt else s
    remove_copy_siblings s fuel copyFork keep nxt

mutual
/-- `AKLWorker._run`: wake queue first, then recall, then tasks, then a
split attempt; stop when none made progress. -/
def run (p : ProgramD) : Nat → St → Option St
  | 0, _ => none
  | fuel + 1, s =>
    match process_wake p fuel s with
    | none => none
    | some (true, s) => run p fuel s
    | some (false, s) =>
      match process_recall p fuel s with
      | none => none
      | some (true, s) => run p fuel s
      | some (false, s) =>
        match process_tasks p fuel s with
        | none => none
        | some (true, s) => run p fuel s
        | some (false, s) =>
          match try_split p fuel s with
          | none => none
          | some (true, s) => run p fuel s
          | some (false, s) => some s

/-- `AKLWorker._process_wake`. -/
def process_wake (p : ProgramD) : Nat → St → Option (Bool × St)
  | 0, _ => none
  | fuel + 1, s =>
    match s.wake with
    | [] => some (false, s)
    | ab :: rest =>
      let s := { s with wake := rest }
      if is_dead s ab then some (true, s)
      else
        match try_andbox p fuel ab s with
        | none => none
        | some s => some (true, s)

/-- `AKLWorker._process_recall`: the source would call the undefined method
`_try_next_clause` when a choice-box still has a clause continuation; no
code path ever stores one (`cont` is always `None`), and the would-be
`AttributeError` is modelled as `none`. -/
def process_recall (_p : ProgramD) : Nat → St → Option (Bool × St)
  | 0, _ => none
  | _ + 1, s =>
    match s.recallQ with
    | [] => some (false, s)
    | chb :: rest =>
      let s := { s with recallQ := rest }
      if (s.getChb chb).cont = none then some (true, s)
      else none

/-- `AKLWorker._process_tasks`. -/
def process_tasks (p : ProgramD) : Nat → St → Option (Bool × St)
  | 0, _ => none
  | fuel + 1, s =>
    match s.tasks with
    | [] => some (false, s)
    | task :: rest =>
      let s := { s with tasks := rest }
      match task.ttype with
      | .START =>
        (match s.root with
         | some rc =>
           (match (s.getChb rc).tried with
            | some tr =>
              (match try_andbox p fuel tr s with
               | none => none
               | some s => some (true, s))
            | none => some (true, s))
         | none => some (true, s))
      | .PROMOTE =>
        (match task.andbox with
         | some ab =>
           if ¬is_dead s ab then
             match promote_andbox p fuel ab s with
             | none => none
             | some s => some (true, s)
           else some (true, s)
         | none => some (true, s))
      | .SPLIT =>
        (match task.andbox with
         | some ab =>
           if ¬is_dead s ab then
             match do_split p fuel ab s with
             | none => none
             | some s => some (true, s)
           else some (true, s)
         | none => some (true, s))
      | .ROOT => some (true, s)

/-- `AKLWorker._try_split`: search all root alternatives. -/
def try_split (p : ProgramD) : Nat → St → Option (Bool × St)
  | 0, _ => none
  | fuel + 1, s =>
    match s.root with
    | none => some (false, s)
    | some rc =>
      match (s.getChb rc).tried with
      | none => some (false, s)
      | some first => try_split_loop p fuel (some first) s

/-- The root-alternative loop of `_try_split`. -/
def try_split_loop (p : ProgramD) : Nat → Option Nat → St → Option (Bool × St)
  | 0, _, _ => none
  | _ + 1, none, s => some (false, s)
  | fuel + 1, some ab, s =>
    if is_dead s ab then try_split_loop p fuel (s.getAndb ab).next s
    else if is_stable s ab then
      match find_candidate s fuel ab with
      | none => none
      | some (some cand) =>
        (match do_split p fuel cand s with
         | none => none
         | some s => some (true, s))
      | some none => try_split_loop p fuel (s.getAndb ab).next s
    else try_split_loop p fuel (s.getAndb ab).next s

/-- `AKLWorker._do_split`: copy the mother subtree, keep only the copied
candidate in the copied fork, insert the copy to the left of the mother,
retire the original candidate, queue follow-up work, and promote the
copied candidate. -/
def do_split (p : ProgramD) : Nat → Nat → St → Option St
  | 0, _, _ => none
  | fuel + 1, cand, s =>
    match (s.getAndb cand).father with
    | none => some s
    | some fork =>
      match (s.getChb fork).father with
      | none => some s
      | some mother =>
        match copy_andbox_subtree s fuel mother with
        | none => none
        | some (mc, s) =>
          match find_copied_fork s fuel (s.getAndb mc).tried (s.getAndb mother).tried fork with
          | none => none
          | some none => some s
          | some (some copyFork) =>
            match find_copied_candidate s fuel (s.getChb copyFork).tried
                (s.getChb fork).tried cand with
            | none => none
            | some none => some s
            | some (some copyCand) =>
              match remove_copy_siblings s fuel copyFork copyCand
                  ((s.getChb copyFork).tried) with
              | none => none
              | some s =>
                let s :=
                  match (s.getAndb mother).father with
                  | some rootChb =>
                    let s := s.setAndb mc
                      { s.getAndb mc with father := some rootChb, next := some mother,
                                          prev := (s.getAndb mother).prev }
                    let s :=
                      match (s.getAndb mother).prev with
                      | some pp => s.setAndb pp { s.getAndb pp with next := some mc }
                      | none => s.setChb rootChb { s.getChb rootChb with tried := some mc }
                    s.setAndb mother { s.getAndb mother with prev := some mc }
                  | none => s
                let s := remove_alternative s fork cand
                let s := mark_dead s cand
                let s :=
                  if is_determinate s fork then
                    match (s.getChb fork).tried with
                    | some tr => { s with tasks := s.tasks ++ [⟨.PROMOTE, some tr⟩] }
                    | none => s
                  else if is_stable s mother then
                    { s with tasks := s.tasks ++ [⟨.SPLIT, some mother⟩] }
                  else s
                promote_andbox p fuel copyCand s

/-- `AKLWorker._try_andbox`: nothing for a dead box; otherwise run the goal
loop. -/
def try_andbox (p : ProgramD) : Nat → Nat → St → Option St
  | 0, _, _ => none
  | fuel + 1, ab, s =>
    if is_dead s ab then some s
    else try_andbox_goals p fuel ab s

/-- The goal loop of `_try_andbox`: pop and run goals until the queue is
empty (failure propagates, an unstable box stops); when the box is solved
the guard is tried. -/
def try_andbox_goals (p : ProgramD) : Nat → Nat → St → Option St
  | 0, _, _ => none
  | fuel + 1, ab, s =>
    match (s.getAndb ab).goals with
    | [] =>
      if is_solved s ab then try_guard p fuel ab s
      else some s
    | g :: rest =>
      let s := s.setAndb ab { s.getAndb ab with goals := rest }
      match try_goal p fuel ab g s with
      | none => none
      | some (false, s) => propagate_failure p fuel ab s
      | some (true, s) =>
        if is_unstable s ab then some s
        else try_andbox_goals p fuel ab s

/-- `AKLWorker._try_goal`: dispatch on the dereferenced goal in source
order (conjunction, disjunction, negation, `true`, `fail`/`false`,
unification, builtin, user predicate). -/
def try_goal (p : ProgramD) : Nat → Nat → PTerm → St → Option (Bool × St)
  | 0, _, _, _ => none
  | fuel + 1, ab, g, s =>
    match deref s fuel g with
    | none => none
    | some goal =>
      match goal with
      | .struct "," [g1, g2] =>
        some (true, s.setAndb ab
          { s.getAndb ab with goals := g1 :: g2 :: (s.getAndb ab).goals })
      | .struct ";" [l, r] => expand_disjunction p fuel ab l r s
      | .struct "\\+" [g1] => try_negation p fuel ab g1 s
      | goal =>
        if goal = .atom "true" then some (true, s)
        else if goal = .atom "fail" ∨ goal = .atom "false" then some (false, s)
        else
          match goal with
          | .struct "=" [a, b] => try_unification s fuel ab a b
          | goal =>
            match (match goal with
                   | .atom nm => some (nm, 0, ([] : List PTerm))
                   | .struct nm args => some (nm, args.length, args)
                   | _ => none) with
            | none => some (false, s)
            | some (nm, ar, args) =>
              if is_builtin nm ar then call_builtin s fuel nm ar args
              else expand_predicate p fuel ab nm ar goal s

/-- `AKLWorker._expand_predicate`: one alternative per clause (the
`hasattr(chb, 'guard_type')` test is false on a fresh `ChoiceBox`, so the
clause guard type is never stored); then dead alternatives are removed and
the remaining ones are processed. -/
def expand_predicate (p : ProgramD) : Nat → Nat → String → Nat → PTerm → St →
    Option (Bool × St)
  | 0, _, _, _, _, _ => none
  | fuel + 1, ab, name, arity, goal, s =>
    match get_clauses p name arity with
    | [] => some (false, s)
    | c0 :: cs =>
      match create_choice s fuel ab (some (name ++ "/" ++ toString arity)) with
      | none => none
      | some (chb, s) =>
        let s :=
          if (s.getChb chb).guardType.isSome then
            s.setChb chb { s.getChb chb with guardType := some c0.guardType }
          else s
        match expand_clauses s fuel (c0 :: cs) chb goal with
        | none => none
        | some s =>
          match cleanup_dead_alternatives s fuel chb with
          | none => none
          | some s =>
            match (s.getChb chb).tried with
            | none => some (false, s)
            | some tr =>
              if is_determinate s chb then
                match try_andbox p fuel tr s with
                | none => none
                | some s => some (true, s)
              else
                match try_all_alternatives p fuel (some tr) s with
                | none => none
                | some s => some (true, s)

/-- The alternatives loop at the end of `_expand_predicate` (the `next`
link is read after each attempt, from the updated tree). -/
def try_all_alternatives (p : ProgramD) : Nat → Option Nat → St → Option St
  | 0, _, _ => none
  | _ + 1, none, s => some s
  | fuel + 1, some alt, s =>
    match (if ¬is_dead s alt then try_andbox p fuel alt s else some s) with
    | none => none
    | some s => try_all_alternatives p fuel (s.getAndb alt).next s

/-- `AKLWorker._expand_disjunction`. -/
def expand_disjunction (p : ProgramD) : Nat → Nat → PTerm → PTerm → St →
    Option (Bool × St)
  | 0, _, _, _, _ => none
  | fuel + 1, ab, l, r, s =>
    match l with
    | .struct "->" [c, t] => expand_if_then_else p fuel ab c t r s
    | _ =>
      match create_choice s fuel ab none with
      | none => none
      | some (chb, s) =>
        match create_alternative s fuel chb with
        | none => none
        | some (la, s) =>
          let s := s.setAndb la { s.getAndb la with goals := (s.getAndb la).goals ++ [l] }
          match create_alternative s fuel chb with
          | none => none
          | some (ra, s) =>
            let s := s.setAndb ra { s.getAndb ra with goals := (s.getAndb ra).goals ++ [r] }
            match try_andbox p fuel la s with
            | none => none
            | some s =>
              match try_andbox p fuel ra s with
              | none => none
              | some s => some (true, s)

/-- `AKLWorker._expand_if_then_else`. -/
def expand_if_then_else (p : ProgramD) : Nat → Nat → PTerm → PTerm → PTerm → St →
    Option (Bool × St)
  | 0, _, _, _, _, _ => none
  | fuel + 1, ab, cond, thenT, elseT, s =>
    match create_choice s fuel ab none with
    | none => none
    | some (chb, s) =>
      match create_alternative s fuel chb with
      | none => none
      | some (ta, s) =>
        let s := s.setAndb ta
          { s.getAndb ta with goals := (s.getAndb ta).goals ++ [cond],
                              bodyGoals := some [thenT] }
        match create_alternative s fuel chb with
        | none => none
        | some (ea, s) =>
          let s := s.setAndb ea { s.getAndb ea with goals := (s.getAndb ea).goals ++ [elseT] }
          match try_andbox p fuel ta s with
          | none => none
          | some s =>
            if is_solved s ta ∧ is_quiet s ta then
              let s := mark_dead s ea
              match (s.getAndb ta).bodyGoals with
              | some bg =>
                if bg ≠ [] then
                  let s := s.setAndb ta
                    { s.getAndb ta with goals := (s.getAndb ta).goals ++ bg,
                                        bodyGoals := none }
                  match try_andbox p fuel ta s with
                  | none => none
                  | some s => some (true, s)
                else some (true, s)
              | none => some (true, s)
            else
              match try_andbox p fuel ea s with
              | none => none
              | some s => some (true, s)

/-- `AKLWorker._try_negation`: run the goal in a detached and-box with the
solutions saved away, then undo the trail and invert. -/
def try_negation (p : ProgramD) : Nat → Nat → PTerm → St → Option (Bool × St)
  | 0, _, _, _ => none
  | fuel + 1, ab, goal, s =>
    let pos := s.trail.length
    let (temp, s) := newAndBox s
    let (e, s) := newEnv s (some (s.getAndb ab).env)
    let s := s.setAndb temp
      { s.getAndb temp with env := e, goals := (s.getAndb temp).goals ++ [goal] }
    let saved := s.solutions
    let s := { s with solutions := [] }
    match try_andbox p fuel temp s with
    | none => none
    | some s =>
      let succ := s.solutions ≠ [] ∨ (is_solved s temp ∧ ¬is_dead s temp)
      let s := { s with solutions := saved }
      let s := undoTrailTo s pos
      some (¬succ, s)

/-- `AKLWorker._try_guard`: a solved and-box directly under the root
records a solution; otherwise the guard type remembered on the choice-box
(`getattr` default `NONE`, and nothing ever stores one) decides promotion
and pruning. -/
def try_guard (p : ProgramD) : Nat → Nat → St → Option St
  | 0, _, _ => none
  | fuel + 1, ab, s =>
    if is_dead s ab then some s
    else
      match (s.getAndb ab).father with
      | none => some s
      | some chb =>
        match (s.getChb chb).father with
        | none =>
          (match record_solution s fuel ab with
           | none => none
           | some s => some (mark_dead s ab))
        | some _ =>
          let gt := (s.getChb chb).guardType.getD .NONE
          let cp : Bool × Bool :=
            match gt with
            | .NONE => (is_determinate s chb, false)
            | .COMMIT => (is_quiet s ab, is_quiet s ab)
            | .ARROW => (is_quiet s ab && (s.getAndb ab).prev == none,
                         is_quiet s ab && (s.getAndb ab).prev == none)
            | .CUT => ((s.getAndb ab).prev == none, (s.getAndb ab).prev == none)
            | .WAIT => (is_determinate s chb, false)
            | .QUIET_WAIT => (is_determinate s chb && is_quiet s ab, false)
          if cp.1 then
            match (if cp.2 then prune_siblings s fuel ab gt else some s) with
            | none => none
            | some s => promote_andbox p fuel ab s
          else some s

/-- `AKLWorker._promote_andbox`: at the root record a solution; otherwise
re-home local variables, discharge the deferred unifiers against the
parent (failure kills the parent), prepend the body goals, unlink the
promoted box (and its choice-box when empty) and continue with the
parent. -/
def promote_andbox (p : ProgramD) : Nat → Nat → St → Option St
  | 0, _, _ => none
  | fuel + 1, ab, s =>
    if is_dead s ab then some s
    else
      match (s.getAndb ab).father with
      | none => some s
      | some chb =>
        match (s.getChb chb).father with
        | none =>
          if ¬is_dead s ab then
            match record_solution s fuel ab with
            | none => none
            | some s => some (mark_dead s ab)
          else some s
        | some parent =>
          match rehome_local_vars s fuel ab parent with
          | none => none
          | some s =>
            match discharge_unifiers s fuel parent (s.getAndb ab).unifiers with
            | none => none
            | some (false, s) => some s
            | some (true, s) =>
              let s :=
                match (s.getAndb ab).bodyGoals with
                | some bg =>
                  if bg ≠ [] then
                    s.setAndb parent
                      { s.getAndb parent with goals := bg ++ (s.getAndb parent).goals }
                  else s
                | none => s
              let s := remove_alternative s chb ab
              let s :=
                if (s.getChb chb).tried = none then
                  let s :=
                    match (s.getChb chb).prev with
                    | some pp => s.setChb pp { s.getChb pp with next := (s.getChb chb).next }
                    | none => s.setAndb parent
                        { s.getAndb parent with tried := (s.getChb chb).next }
                  match (s.getChb chb).next with
                  | some nn => s.setChb nn { s.getChb nn with prev := (s.getChb chb).prev }
                  | none => s
                else s
              try_andbox p fuel parent s

/-- `AKLWorker._propagate_failure`. -/
def propagate_failure (p : ProgramD) : Nat → Nat → St → Option St
  | 0, _, _ => none
  | fuel + 1, ab, s =>
    let s := mark_dead s ab
    match (s.getAndb ab).father with
    | none => some s
    | some chb =>
      let s := remove_alternative s chb ab
      match (s.getChb chb).tried with
      | none =>
        (match (s.getChb chb).father with
         | some parent => propagate_failure p fuel parent s
         | none => some s)
      | some tr =>
        if is_determinate s chb then try_andbox p fuel tr s
        else some s
end

/-- `AKLWorker.solve`: reset the worker, collect the query variables,
build the root (`create_root` of `engine.py`: a fresh execution state, the
root choice-box and and-box, the goal queued and a `START` task), remember
the query variables in the root and-box, and run the loop. -/
def akl_solve (p : ProgramD) (s : St) (fuel : Nat) (goal : PTerm) : Option St :=
  let s := { s with solutions := [], queryVars := [] }
  match collect_query_vars s fuel goal with
  | none => none
  | some s =>
    let s := { s with trail := [], tasks := [], wake := [], recallQ := [], root := none }
    let (rootChb, s) := newChoiceBox s none none
    let (rootAb, s) := newAndBox s
    let s := s.setAndb rootAb
      { s.getAndb rootAb with goals := (s.getAndb rootAb).goals ++ [goal] }
    match add_alternative s fuel rootChb rootAb with
    | none => none
    | some s =>
      let s := { s with root := some rootChb,
                        tasks := s.tasks ++ [(⟨.START, none⟩ : TaskD)] }
      let s := s.setAndb rootAb
        { s.getAndb rootAb with localVars := (s.getAndb rootAb).localVars ++ s.queryVars }
      run p fuel s

/-- The database `choose(a) :- true | true.  choose(b) :- true | true.` as
`compile_clause` stores it: guard `true`, guard type `COMMIT`, body
`[true]` for both clauses. -/
def chooseProg : ProgramD :=
  [(("choose", 1),
    [{ head := .struct "choose" [.atom "a"], guard := some (.atom "true"),
       guardType := .COMMIT, body := [.atom "true"] },
     { head := .struct "choose" [.atom "b"], guard := some (.atom "true"),
       guardType := .COMMIT, body := [.atom "true"] }])]

/-- The store holding the single parsed query variable `X` (index 0). -/
def chooseStart : St := (allocVar {} (some "X") false none).2

/-- The query `choose(X)`. -/
def chooseGoal : PTerm := .struct "choose" [.var 0]

/-- The whole `solve` run for `choose(X)` against `chooseProg`. -/
def chooseRun (fuel : Nat) : Option St := akl_solve chooseProg chooseStart fuel chooseGoal

mutual
/-- A term with no variables anywhere (used to state the univ round-trip
on the fragment where unification cannot bind anything). -/
def isGround : PTerm → Bool
  | .var _ => false
  | .atom _ => true
  | .int _ => true
  | .float _ => true
  | .struct _ args => isGroundList args
  | .cons h t => isGround h && isGround t

/-- Groundness of every element. -/
def isGroundList : List PTerm → Bool
  | [] => true
  | a :: as => isGround a && isGroundList as
end

/-- The `elems` list of `builtin_univ`'s `+Term` mode: `[term]` for an
atomic term, `[functor] + args` for a structure. -/
def univElems : PTerm → List PTerm
  | .struct f args => .atom f :: args
  | t => [t]

mutual
/-- A term containing no `Cons` cell: on this fragment `_term_compare`
never reaches the `Cons`-versus-`Struct` attribute error. -/
def noCons : PTerm → Bool
  | .var _ => true
  | .atom _ => true
  | .int _ => true
  | .float _ => true
  | .struct _ args => noConsList args
  | .cons _ _ => false

/-- `noCons` for every element. -/
def noConsList : List PTerm → Bool
  | [] => true
  | a :: as => noCons a && noConsList as
end

theorem trailExt_refl (s : St) : TrailExt s s := ⟨[], rfl, rfl⟩

theorem applyUndo_append (bs : List (Option PTerm)) (e1 e2 : List (Nat × Option PTerm)) :
    applyUndo bs (e1 ++ e2) = applyUndo (applyUndo bs e1) e2 := by
  simp [applyUndo, List.foldl_append]

theorem trailExt_trans {s s' s'' : St} (h1 : TrailExt s s') (h2 : TrailExt s' s'') :
    TrailExt s s'' := by
  obtain ⟨e1, he1, hb1⟩ := h1
  obtain ⟨e2, he2, hb2⟩ := h2
  exact ⟨e2 ++ e1, by rw [he2, he1, List.append_assoc],
         by rw [applyUndo_append, hb2, hb1]⟩

theorem list_set_getD {α : Type} (l : List α) (n : Nat) (d : α) :
    l.set n (l.getD n d) = l := by
  induction l generalizing n with
  | nil => rfl
  | cons a as ih =>
    cases n with
    | zero => rfl
    | succ n =>
      have h : (a :: as).set (n + 1) ((a :: as).getD (n + 1) d)
          = a :: as.set n (as.getD n d) := rfl
      rw [h, ih n]

theorem list_map_set {α β : Type} (f : α → β) (l : List α) (n : Nat) (a : α) :
    (l.set n a).map f = (l.map f).set n (f a) := by
  induction l generalizing n with
  | nil => rfl
  | cons x xs ih =>
    cases n with
    | zero => rfl
    | succ n => simp [List.set, ih]

theorem bindings_setVar (s : St) (v : Nat) (c : VarCell) :
    (s.setVar v c).bindings = s.bindings.set v c.binding := by
  simp [St.setVar, St.bindings, list_map_set]

theorem getVar_binding (s : St) (v : Nat) :
    (s.getVar v).binding = s.bindings.getD v none := by
  simp only [St.getVar, St.bindings]
  generalize s.vars = l
  induction l generalizing v with
  | nil => simp [List.getD]; rfl
  | cons c cs ih =>
    cases v with
    | zero => simp [List.getD]
    | succ v => simpa [List.getD] using ih v

theorem foldSusp_fields (l : List Susp) (s0 : St) :
    (l.foldl suspStep s0).vars = s0.vars ∧ (l.foldl suspStep s0).trail = s0.trail := by
  induction l generalizing s0 with
  | nil => exact ⟨rfl, rfl⟩
  | cons sp sps ih =>
    cases sp with
    | andbox a => simpa [suspStep] using ih _
    | choicebox cb => simpa [suspStep] using ih _

theorem wakeAll_bindings (s : St) (v : Nat) :
    (wakeAll s v).bindings = s.bindings ∧ (wakeAll s v).trail = s.trail := by
  have h := foldSusp_fields (s.getVar v).susps s
  show ((((s.getVar v).susps.foldl suspStep s)).setVar v
      { s.getVar v with susps := [] }).bindings = s.bindings ∧
    ((((s.getVar v).susps.foldl suspStep s)).setVar v
      { s.getVar v with susps := [] }).trail = s.trail
  constructor
  · rw [bindings_setVar]
    have hb : St.bindings ((s.getVar v).susps.foldl suspStep s) = s.bindings := by
      simp only [St.bindings, h.1]
    rw [hb]
    show (St.bindings s).set v (s.getVar v).binding = s.bindings
    rw [getVar_binding, list_set_getD]
  · simpa [St.setVar] using h.2

theorem trailBinding_fields (s : St) (v : Nat) (old : Option PTerm) :
    (trailBinding s v old).bindings = s.bindings ∧
    (trailBinding s v old).trail = (v, old) :: s.trail ∧
    (trailBinding s v old).getVar = s.getVar := by
  exact ⟨rfl, rfl, rfl⟩

theorem bindVarUCore_bindings (s : St) (v : Nat) (t : PTerm) :
    (bindVarUCore s v t).bindings = s.bindings.set v (some t) ∧
    (bindVarUCore s v t).trail = (v, (s.getVar v).binding) :: s.trail := by
  have hexp : bindVarUCore s v t =
      (if (s.getVar v).constrained then
        wakeAll ((trailBinding s v (s.getVar v).binding).setVar v
          { (trailBinding s v (s.getVar v).binding).getVar v with binding := some t }) v
      else ((trailBinding s v (s.getVar v).binding).setVar v
          { (trailBinding s v (s.getVar v).binding).getVar v with binding := some t })) := rfl
  rw [hexp]
  cases hcon : (s.getVar v).constrained with
  | true =>
    rw [if_pos rfl]
    refine ⟨?_, ?_⟩
    · rw [(wakeAll_bindings _ _).1, bindings_setVar]
      rfl
    · rw [(wakeAll_bindings _ _).2]
      rfl
  | false =>
    rw [if_neg (by simp)]
    refine ⟨?_, ?_⟩
    · rw [bindings_setVar]
      rfl
    · rfl

/-- Every successful or failed `_bind_var` leaves a trail extension that
restores the touched binding slot. -/
theorem bindVarU_trailExt {s : St} {fuel v : Nat} {t : PTerm} {oc : Bool}
    {r : Bool} {s' : St} (h : bindVarU s fuel v t oc = some (r, s')) :
    TrailExt s s' := by
  have core : TrailExt s (bindVarUCore s v t) := by
    refine ⟨[(v, (s.getVar v).binding)], (bindVarUCore_bindings s v t).2, ?_⟩
    simp only [applyUndo, List.foldl_cons, List.foldl_nil]
    rw [(bindVarUCore_bindings s v t).1, List.set_set, getVar_binding, list_set_getD]
  unfold bindVarU at h
  by_cases hoc : oc
  · rw [if_pos hoc] at h
    cases hocc : occursIn s fuel v t with
    | none => rw [hocc] at h; cases h
    | some b =>
      rw [hocc] at h
      cases b with
      | true =>
        simp only [Option.some.injEq, Prod.mk.injEq] at h
        rw [← h.2]
        exact trailExt_refl s
      | false =>
        simp only [Option.some.injEq, Prod.mk.injEq] at h
        rw [← h.2]
        exact core
  · rw [if_neg hoc] at h
    simp only [Option.some.injEq, Prod.mk.injEq] at h
    rw [← h.2]
    exact core

/-- Both `unify` and its argument loop leave a trail extension whose replay
restores every binding slot, whether they succeed or fail. -/
theorem unify_trailExt_all : ∀ fuel : Nat,
    (∀ s t1 t2 oc r s', unifyF s fuel t1 t2 oc = some (r, s') → TrailExt s s') ∧
    (∀ s as bs oc r s', unifyArgsF s fuel as bs oc = some (r, s') → TrailExt s s') := by
  intro fuel
  induction fuel with
  | zero =>
    constructor
    · intro s t1 t2 oc r s' h
      cases h
    · intro s as bs oc r s' h
      match as, bs, h with
      | [], _, h =>
        simp only [unifyArgsF, Option.some.injEq, Prod.mk.injEq] at h
        rw [← h.2]; exact trailExt_refl s
      | _ :: _, [], h =>
        simp only [unifyArgsF, Option.some.injEq, Prod.mk.injEq] at h
        rw [← h.2]; exact trailExt_refl s
      | _ :: _, _ :: _, h => cases h
  | succ fuel ih =>
    constructor
    · intro s t1 t2 oc r s' h
      rw [unifyF] at h
      cases hd1 : deref s fuel t1 with
      | none => rw [hd1] at h; cases h
      | some u1 =>
        cases hd2 : deref s fuel t2 with
        | none => rw [hd1, hd2] at h; dsimp only at h; cases h
        | some u2 =>
          rw [hd1, hd2] at h
          dsimp only at h
          by_cases heq : u1 = u2
          · rw [if_pos heq] at h
            simp only [Option.some.injEq, Prod.mk.injEq] at h
            rw [← h.2]; exact trailExt_refl s
          · rw [if_neg heq] at h
            split at h
            all_goals try exact bindVarU_trailExt h
            all_goals try (simp only [Option.some.injEq, Prod.mk.injEq] at h
                           rw [← h.2]
                           exact trailExt_refl s)
            · -- struct against struct
              split at h
              · simp only [Option.some.injEq, Prod.mk.injEq] at h
                rw [← h.2]; exact trailExt_refl s
              · exact ih.2 _ _ _ _ _ _ h
            · -- cons against cons: the head unification then the tails
              split at h
              · cases h
              · rename_i r1 s1 hu
                have hx1 : TrailExt s s1 := ih.1 _ _ _ _ _ _ hu
                cases r1 with
                | true =>
                  rw [if_pos rfl] at h
                  exact trailExt_trans hx1 (ih.1 _ _ _ _ _ _ h)
                | false =>
                  rw [if_neg (by simp)] at h
                  simp only [Option.some.injEq, Prod.mk.injEq] at h
                  rw [← h.2]; exact hx1
    · intro s as bs oc r s' h
      match as, bs, h with
      | [], _, h =>
        simp only [unifyArgsF, Option.some.injEq, Prod.mk.injEq] at h
        rw [← h.2]; exact trailExt_refl s
      | _ :: _, [], h =>
        simp only [unifyArgsF, Option.some.injEq, Prod.mk.injEq] at h
        rw [← h.2]; exact trailExt_refl s
      | a :: as, b :: bs, h =>
        rw [unifyArgsF] at h
        cases hu : unifyF s fuel a b oc with
        | none => rw [hu] at h; cases h
        | some p =>
          obtain ⟨r1, s1⟩ := p
          rw [hu] at h
          dsimp only at h
          have hx1 : TrailExt s s1 := ih.1 _ _ _ _ _ _ hu
          cases r1 with
          | true =>
            rw [if_pos rfl] at h
            exact trailExt_trans hx1 (ih.2 _ _ _ _ _ _ h)
          | false =>
            rw [if_neg (by simp)] at h
            simp only [Option.some.injEq, Prod.mk.injEq] at h
            rw [← h.2]; exact hx1

/-- The trail-restoration invariant for a single `unify` call. -/
theorem unifyF_trailExt {s : St} {fuel : Nat} {t1 t2 : PTerm} {oc : Bool}
    {r : Bool} {s' : St} (h : unifyF s fuel t1 t2 oc = some (r, s')) :
    TrailExt s s' :=
  (unify_trailExt_all fuel).1 s t1 t2 oc r s' h

theorem unifySeq_trailExt {fuel : Nat} :
    ∀ (calls : List (PTerm × PTerm × Bool)) (s s' : St),
      unifySeq s fuel calls = some s' → TrailExt s s' := by
  intro calls
  induction calls with
  | nil =>
    intro s s' h
    simp only [unifySeq, Option.some.injEq] at h
    rw [← h]; exact trailExt_refl s
  | cons c rest ih =>
    intro s s' h
    obtain ⟨t1, t2, oc⟩ := c
    rw [unifySeq] at h
    cases hu : unifyF s fuel t1 t2 oc with
    | none => rw [hu] at h; cases h
    | some p =>
      obtain ⟨r1, s1⟩ := p
      rw [hu] at h
      exact trailExt_trans (unifyF_trailExt hu) (ih s1 s' h)

theorem undoSteps_applyUndo :
    ∀ (ext : List (Nat × Option PTerm)) (s' : St) (t0 : List (Nat × Option PTerm)),
      s'.trail = ext ++ t0 →
      (undoSteps ext.length s').bindings = applyUndo s'.bindings ext ∧
      (undoSteps ext.length s').trail = t0 := by
  intro ext
  induction ext with
  | nil =>
    intro s' t0 h
    exact ⟨rfl, h⟩
  | cons e ext ih =>
    intro s' t0 h
    obtain ⟨v, old⟩ := e
    have hstep : undoStep s' =
        { s' with trail := ext ++ t0,
                  vars := s'.vars.set v { s'.getVar v with binding := old } } := by
      rw [undoStep, h]
      rfl
    have hb : (undoStep s').bindings = s'.bindings.set v old := by
      rw [hstep]
      show (s'.vars.set v _).map (·.binding) = _
      rw [list_map_set]
      rfl
    have ht : (undoStep s').trail = ext ++ t0 := by rw [hstep]
    have := ih (undoStep s') t0 ht
    refine ⟨?_, ?_⟩
    · show (undoSteps ext.length (undoStep s')).bindings = _
      rw [this.1, hb]
      rfl
    · exact this.2

/-- Undoing the trail back to a snapshot position restores every binding
slot and the snapshot trail. -/
theorem trailExt_undoTrailTo {s s' : St} (h : TrailExt s s') :
    (undoTrailTo s' s.trail.length).bindings = s.bindings ∧
    (undoTrailTo s' s.trail.length).trail = s.trail := by
  obtain ⟨ext, he, hb⟩ := h
  have hlen : s'.trail.length - s.trail.length = ext.length := by
    rw [he]; simp
  unfold undoTrailTo
  rw [hlen]
  have hh := undoSteps_applyUndo ext s' s.trail he
  exact ⟨hh.1.trans hb, hh.2⟩

/-! ## Claim theorems -/

/-- C2 counterexample: `unify(f(X,a), f(b,c))` returns false after binding
`X` to `b`; the failing call does not undo its net binding, contradicting
the claim that a false return has performed no net binding. -/
theorem C2_counterexample :
    (unifyF { vars := [{ name := "X" }] } 20
        (.struct "f" [.var 0, .atom "a"]) (.struct "f" [.atom "b", .atom "c"]) false).map
      (fun p => (p.1, p.2.bindings)) = some (false, [some (.atom "b")]) := by rfl

/-- C2 (amended): every `unify` call, whether it returns true or false,
pushes a trail entry for every binding it performs: the new trail segment
replayed over the final binding slots restores exactly the caller's
binding slots. -/
theorem C2_theorem {s : St} {fuel : Nat} {t1 t2 : PTerm} {oc r : Bool} {s' : St}
    (h : unifyF s fuel t1 t2 oc = some (r, s')) :
    ∃ ext, s'.trail = ext ++ s.trail ∧ applyUndo s'.bindings ext = s.bindings :=
  unifyF_trailExt h

/-- C2 witness: the successful call `unify(X, a)` on a one-variable store,
with its concrete result state. -/
theorem C2_witness :
    ∃ ext, ({ vars := [{ name := "X", binding := some (.atom "a") }],
              trail := [(0, none)] } : St).trail =
        ext ++ ({ vars := [{ name := "X" }] } : St).trail ∧
      applyUndo ({ vars := [{ name := "X", binding := some (.atom "a") }],
                   trail := [(0, none)] } : St).bindings ext =
        ({ vars := [{ name := "X" }] } : St).bindings :=
  @C2_theorem { vars := [{ name := "X" }] } 20 (.var 0) (.atom "a") false true
    { vars := [{ name := "X", binding := some (.atom "a") }], trail := [(0, none)] }
    (by rfl)

/-- C3: for any sequence of `unify` calls (each may succeed or fail),
undoing the trail back to the pre-sequence position restores every
variable cell's binding slot and the trail itself. -/
theorem C3_theorem {fuel : Nat} {calls : List (PTerm × PTerm × Bool)} {s s' : St}
    (h : unifySeq s fuel calls = some s') :
    (undoTrailTo s' (trailPosition s)).bindings = s.bindings ∧
    (undoTrailTo s' (trailPosition s)).trail = s.trail :=
  trailExt_undoTrailTo (unifySeq_trailExt calls s s' h)

/-- C3 witness: a successful `unify(X, a)` followed by a failing
`unify(f(Y,a), f(b,c))` (which leaves `Y` bound), undone back to the
empty-trail snapshot. -/
theorem C3_witness :
    (undoTrailTo ({ vars := [{ name := "X", binding := some (.atom "a") },
                             { name := "Y", binding := some (.atom "b") }],
                    trail := [(1, none), (0, none)] } : St)
        (trailPosition ({ vars := [{ name := "X" }, { name := "Y" }] } : St))).bindings =
      ({ vars := [{ name := "X" }, { name := "Y" }] } : St).bindings ∧
    (undoTrailTo ({ vars := [{ name := "X", binding := some (.atom "a") },
                             { name := "Y", binding := some (.atom "b") }],
                    trail := [(1, none), (0, none)] } : St)
        (trailPosition ({ vars := [{ name := "X" }, { name := "Y" }] } : St))).trail =
      ({ vars := [{ name := "X" }, { name := "Y" }] } : St).trail :=
  @C3_theorem 20
    [((.var 0), (.atom "a"), false),
     ((.struct "f" [.var 1, .atom "a"]), (.struct "f" [.atom "b", .atom "c"]), false)]
    { vars := [{ name := "X" }, { name := "Y" }] }
    { vars := [{ name := "X", binding := some (.atom "a") },
               { name := "Y", binding := some (.atom "b") }],
      trail := [(1, none), (0, none)] }
    (by rfl)

/-- C4 counterexample: an and-box with a non-empty goal queue and no child
choice-box has `is_solved` true, contradicting the claimed equivalence
with "goal queue empty and no child choice-boxes". -/
theorem C4_counterexample :
    is_solved ({ andbs := [{ env := 0, goals := [.atom "g"] }] } : St) 0 = true ∧
    (({ andbs := [{ env := 0, goals := [.atom "g"] }] } : St).getAndb 0).goals ≠ [] :=
  ⟨rfl, by decide⟩

/-- C4 (amended): `is_solved` tests only the absence of child choice-boxes
(`tried is None`); the empty-goal-queue condition is checked separately,
in particular a split candidate must pass both tests. -/
theorem C4_theorem :
    (∀ (s : St) (ab : Nat), is_solved s ab = ((s.getAndb ab).tried == none)) ∧
    (∀ (s : St) (ab chb : Nat), is_candidate s ab chb = true →
      (s.getAndb ab).goals = [] ∧ (s.getAndb ab).tried = none) := by
  constructor
  · intro s ab; rfl
  · intro s ab chb h
    unfold is_candidate at h
    split at h
    · cases h
    · rename_i hcond
      push_neg at hcond
      refine ⟨hcond.2, ?_⟩
      have hs := hcond.1
      unfold is_solved at hs
      simpa using hs

/-- C4 witness: a solved, candidate and-box under a two-alternative
choice-box indeed has an empty goal queue and no child choice-box. -/
theorem C4_witness :
    (({ andbs := [{ env := 0, next := some 1 }, { env := 0, prev := some 0 }],
        chbs := [{ tried := some 0 }] } : St).getAndb 0).goals = [] ∧
    (({ andbs := [{ env := 0, next := some 1 }, { env := 0, prev := some 0 }],
        chbs := [{ tried := some 0 }] } : St).getAndb 0).tried = none :=
  C4_theorem.2
    { andbs := [{ env := 0, next := some 1 }, { env := 0, prev := some 0 }],
      chbs := [{ tried := some 0 }] } 0 0 (by rfl)

/-- C5 counterexample: `1/0 < 2` raises `ZeroDivisionError`, which the
comparison builtin does not catch: the call aborts instead of returning
failure. -/
theorem C5_counterexample :
    builtin_lt ({} : St) 5 (.struct "/" [.int 1, .int 0]) (.int 2) =
      some (.error .zeroDivision) := by rfl

/-- C5 (amended): `is/2` catches every arithmetic error and reports
failure, but the comparison builtins catch only `ValueError`: a
`ZeroDivisionError` raised while evaluating an operand escapes the
builtin. -/
theorem C5_theorem :
    (∀ (s : St) (fuel : Nat) (x e : PTerm) (r : Except ArithErr (Bool × St)),
        builtin_is s fuel x e = some r → ∃ bs, r = .ok bs) ∧
    (∀ (s : St) (fuel : Nat) (a b : PTerm),
        evalArith s fuel a = some (.error .zeroDivision) →
        builtin_lt s fuel a b = some (.error .zeroDivision)) := by
  constructor
  · intro s fuel x e r h
    unfold builtin_is at h
    split at h
    · cases h
    · cases h; exact ⟨_, rfl⟩
    · rename_i v _
      cases v with
      | intV z =>
        rw [Option.map_eq_some'] at h
        obtain ⟨p, _, hp⟩ := h
        exact ⟨p, hp.symm⟩
      | floatV q =>
        simp only [AVal.pyInt] at h
        split at h <;>
          · rw [Option.map_eq_some'] at h
            obtain ⟨p, _, hp⟩ := h
            exact ⟨p, hp.symm⟩
  · intro s fuel a b h
    unfold builtin_lt
    rw [h]

/-- C5 witness: `1 mod 0` raises `ZeroDivisionError` and the `<` builtin
propagates it. -/
theorem C5_witness :
    builtin_lt ({} : St) 6 (.struct "mod" [.int 1, .int 0]) (.int 2) =
      some (.error .zeroDivision) :=
  C5_theorem.2 {} 6 (.struct "mod" [.int 1, .int 0]) (.int 2) (by rfl)

/-- C7 counterexample: `length(L, 0)` with `L` unbound returns failure (the
`-List` mode is not implemented), not the claimed unique solution
`L = []`. -/
theorem C7_counterexample :
    builtin_length ({ vars := [{ name := "L" }] } : St) 5 (.var 0) (.int 0) =
      some (false, { vars := [{ name := "L" }] }) := by rfl

/-- C7 (amended): the `+List` mode works: `length([a,b,c], N)` succeeds
binding `N` to 3 (one trail entry, one binding). -/
theorem C7_theorem :
    builtin_length ({ vars := [{ name := "N" }] } : St) 9
        (.cons (.atom "a") (.cons (.atom "b") (.cons (.atom "c") NIL))) (.var 0) =
      some (true, { vars := [{ name := "N", binding := some (.int 3) }],
                    trail := [(0, none)] }) := by rfl

/-- C9: whenever the `is/2` evaluation yields a float equal to an integer
(denominator 1 in the rational float model), the builtin unifies its first
argument with an `Integer` term carrying that value, never a `Float`. -/
theorem C9_theorem (s : St) (fuel : Nat) (x e : PTerm) (q : Rat)
    (h : evalArith s fuel e = some (.ok (.floatV q))) (hq : q.den = 1) :
    builtin_is s fuel x e = (unifyF s fuel x (.int q.num) false).map .ok := by
  have hcast : ((q.num : Int) : Rat) = q := by
    rw [← Rat.den_eq_one_iff]; exact hq
  have hpy : AVal.pyInt (.floatV q) = q.num := by
    show (if 0 ≤ q then ⌊q⌋ else ⌈q⌉) = q.num
    rcases le_or_lt 0 q with hle | hlt
    · rw [if_pos hle]
      conv_lhs => rw [← hcast]
      exact Int.floor_intCast q.num
    · rw [if_neg (not_le.mpr hlt)]
      conv_lhs => rw [← hcast]
      exact Int.ceil_intCast q.num
  unfold builtin_is
  rw [h]
  simp [hpy, hcast]

/-- C9 witness: `X is 6/3` evaluates to the float 2.0 and binds `X` to the
integer 2. -/
theorem C9_witness :
    evalArith ({ vars := [{ name := "X" }] } : St) 6 (.struct "/" [.int 6, .int 3]) =
        some (.ok (.floatV 2)) ∧
    builtin_is ({ vars := [{ name := "X" }] } : St) 6 (.var 0)
        (.struct "/" [.int 6, .int 3]) =
      (unifyF ({ vars := [{ name := "X" }] } : St) 6 (.var 0) (.int 2) false).map .ok :=
  ⟨by simp [evalArith, evalArithList, evalArithBin, deref, AVal.toQ]; norm_num,
   C9_theorem { vars := [{ name := "X" }] } 6 (.var 0) (.struct "/" [.int 6, .int 3]) 2
     (by simp [evalArith, evalArithList, evalArithBin, deref, AVal.toQ]; norm_num)
     (by rfl)⟩

/-- C10: closing a port (explicitly or from the finalizer) always leaves
it marked closed, and a send to a closed port returns false with the port
and the whole store (hence the stream) unchanged: no cons cell is
allocated and no variable is bound. -/
theorem C10_theorem :
    (∀ (s s' : St) (fuel : Nat) (p p' : PortD),
        Port.doClose s fuel p = some (p', s') → p'.closed = true) ∧
    (∀ (s : St) (fuel : Nat) (p : PortD) (m : PTerm),
        p.closed = true → Port.send s fuel p m = some (false, p, s)) := by
  constructor
  · intro s s' fuel p p' h
    unfold Port.doClose at h
    split at h
    · rename_i hc
      cases h; exact hc
    · split at h
      · cases h
      · split at h
        · split at h
          · cases h; rfl
          · cases h; rfl
        · cases h; rfl
  · intro s fuel p m hc
    unfold Port.send
    rw [if_pos hc]

/-- C10 witness: a freshly opened and then closed port refuses a send and
leaves everything as it was. -/
theorem C10_witness :
    ({ pid := 1, initialStream := 0, streamTail := 0, closed := true } : PortD).closed =
      true ∧
    Port.send ({ vars := [{ name := "_Stream1", binding := some NIL }],
                 varCounter := 1, portCounter := 1 } : St) 5
        { pid := 1, initialStream := 0, streamTail := 0, closed := true } (.atom "m") =
      some (false, { pid := 1, initialStream := 0, streamTail := 0, closed := true },
        { vars := [{ name := "_Stream1", binding := some NIL }],
          varCounter := 1, portCounter := 1 }) :=
  ⟨C10_theorem.1 { vars := [{ name := "_Stream1" }], varCounter := 1, portCounter := 1 }
      { vars := [{ name := "_Stream1", binding := some NIL }],
        varCounter := 1, portCounter := 1 } 5
      { pid := 1, initialStream := 0, streamTail := 0 }
      { pid := 1, initialStream := 0, streamTail := 0, closed := true } (by rfl),
   C10_theorem.2
     { vars := [{ name := "_Stream1", binding := some NIL }],
       varCounter := 1, portCounter := 1 } 5
     { pid := 1, initialStream := 0, streamTail := 0, closed := true } (.atom "m")
     (by rfl)⟩

theorem deref_ground (s : St) (t : PTerm) (hg : isGround t = true) :
    ∀ fuel, deref s fuel t = none ∨ deref s fuel t = some t := by
  intro fuel
  cases fuel with
  | zero => exact Or.inl rfl
  | succ f =>
    cases t with
    | var n => simp [isGround] at hg
    | atom a => exact Or.inr rfl
    | int z => exact Or.inr rfl
    | float q => exact Or.inr rfl
    | struct f as => exact Or.inr rfl
    | cons h tl => exact Or.inr rfl

theorem make_list_cons (x : PTerm) (xs : List PTerm) :
    make_list (x :: xs) = .cons x (make_list xs) := rfl

theorem make_list_ground : ∀ xs, isGroundList xs = true → isGround (make_list xs) = true := by
  intro xs
  induction xs with
  | nil => intro _; rfl
  | cons x xs ih =>
    intro h
    simp only [isGroundList, Bool.and_eq_true] at h
    rw [make_list_cons]
    simp only [isGround, isGroundList, Bool.and_eq_true]
    exact ⟨h.1, ih h.2⟩

theorem make_list_inj : ∀ xs ys : List PTerm, make_list xs = make_list ys → xs = ys := by
  intro xs
  induction xs with
  | nil =>
    intro ys h
    cases ys with
    | nil => rfl
    | cons y ys => cases h
  | cons x xs ih =>
    intro ys h
    cases ys with
    | nil => cases h
    | cons y ys =>
      rw [make_list_cons, make_list_cons] at h
      injection h with h1 h2
      rw [h1, ih ys h2]

theorem unify_ground_all : ∀ fuel : Nat,
    (∀ (s : St) (t1 t2 : PTerm) (oc : Bool) (s' : St), isGround t1 = true →
        isGround t2 = true → unifyF s fuel t1 t2 oc = some (true, s') → t1 = t2) ∧
    (∀ (s : St) (as bs : List PTerm) (oc : Bool) (s' : St), isGroundList as = true →
        isGroundList bs = true → as.length = bs.length →
        unifyArgsF s fuel as bs oc = some (true, s') → as = bs) := by
  intro fuel
  induction fuel with
  | zero =>
    constructor
    · intro s t1 t2 oc s' _ _ h
      simp [unifyF] at h
    · intro s as bs oc s' _ _ hlen h
      cases as with
      | nil =>
        cases bs with
        | nil => rfl
        | cons b bs => simp at hlen
      | cons a as =>
        cases bs with
        | nil => simp at hlen
        | cons b bs => simp [unifyArgsF] at h
  | succ fuel ih =>
    constructor
    · intro s t1 t2 oc s' hg1 hg2 h
      simp only [unifyF] at h
      rcases deref_ground s t1 hg1 fuel with d1 | d1 <;>
        rcases deref_ground s t2 hg2 fuel with d2 | d2 <;>
          rw [d1, d2] at h
      · cases h
      · cases h
      · cases h
      simp only [] at h
      by_cases heq : t1 = t2
      · exact heq
      rw [if_neg heq] at h
      split at h
      · rename_i n _; simp [isGround] at hg1
      · rename_i hnv _ n; simp [isGround] at hg2
      · rename_i a _ hnv1 hnv2
        cases h₂ : t2 with
        | atom b =>
          rw [h₂] at h
          simp only [Option.some.injEq, Prod.mk.injEq] at h
          have := h.1
          simp only [beq_iff_eq] at this
          rw [this]
        | var n => rw [h₂] at hg2; simp [isGround] at hg2
        | int z => rw [h₂] at h; simp at h
        | float q => rw [h₂] at h; simp at h
        | struct f as => rw [h₂] at h; simp at h
        | cons hh tt => rw [h₂] at h; simp at h
      · cases h₂ : t2 with
        | int b =>
          rw [h₂] at h
          simp only [Option.some.injEq, Prod.mk.injEq] at h
          have := h.1
          simp only [beq_iff_eq] at this
          rw [this]
        | var n => rw [h₂] at hg2; simp [isGround] at hg2
        | atom z => rw [h₂] at h; simp at h
        | float q => rw [h₂] at h; simp at h
        | struct f as => rw [h₂] at h; simp at h
        | cons hh tt => rw [h₂] at h; simp at h
      · cases h₂ : t2 with
        | float b =>
          rw [h₂] at h
          simp only [Option.some.injEq, Prod.mk.injEq] at h
          have := h.1
          simp only [beq_iff_eq] at this
          rw [this]
        | var n => rw [h₂] at hg2; simp [isGround] at hg2
        | atom z => rw [h₂] at h; simp at h
        | int q => rw [h₂] at h; simp at h
        | struct f as => rw [h₂] at h; simp at h
        | cons hh tt => rw [h₂] at h; simp at h
      · rename_i f1 args1 f2 args2
        split at h
        · cases h
        · rename_i hcond
          push_neg at hcond
          have hlen := hcond.2
          have hf := hcond.1
          simp only [isGround] at hg1 hg2
          rw [hf, (ih.2 s args1 args2 oc s' hg1 hg2 hlen h)]
      · cases h
      · rename_i h1 tl1 h2 tl2
        simp only [isGround, Bool.and_eq_true, isGroundList] at hg1 hg2
        split at h
        · cases h
        · rename_i r s2 hu
          cases r with
          | false => rw [if_neg (by simp)] at h; cases h
          | true =>
            rw [if_pos rfl] at h
            have e1 := (ih.1 s h1 h2 oc s2 hg1.1 hg2.1 hu)
            have e2 := (ih.1 s2 tl1 tl2 oc s' hg1.2 hg2.2 h)
            rw [e1, e2]
      · cases h
    · intro s as bs oc s' hga hgb hlen h
      cases as with
      | nil =>
        cases bs with
        | nil => rfl
        | cons b bs => simp at hlen
      | cons a as =>
        cases bs with
        | nil => simp at hlen
        | cons b bs =>
          simp only [unifyArgsF] at h
          simp only [isGroundList, Bool.and_eq_true] at hga hgb
          simp only [List.length_cons, Nat.succ.injEq] at hlen
          split at h
          · cases h
          · rename_i r s2 hu
            cases r with
            | false => rw [if_neg (by simp)] at h; cases h
            | true =>
              rw [if_pos rfl] at h
              rw [ih.1 s a b oc s2 hga.1 hgb.1 hu,
                  ih.2 s2 as bs oc s' hga.2 hgb.2 hlen h]

theorem univ_ground_eq {s s' : St} {fuel : Nat} {T L : PTerm}
    (hgT : isGround T = true) (hgL : isGround L = true)
    (h : builtin_univ s fuel T L = some (true, s')) :
    L = make_list (univElems T) := by
  unfold builtin_univ at h
  rcases deref_ground s T hgT fuel with d1 | d1 <;> rw [d1] at h
  · simp only [bind, Option.bind] at h
    cases h
  rcases deref_ground s L hgL fuel with d2 | d2 <;>
    simp only [bind, Option.bind, d2] at h
  · cases h
  cases T with
  | var n => simp [isGround] at hgT
  | atom a =>
    exact (unify_ground_all fuel).1 s L (make_list [.atom a]) false s' hgL
      (make_list_ground [.atom a] (by simp [isGroundList, isGround])) h
  | int z =>
    exact (unify_ground_all fuel).1 s L (make_list [.int z]) false s' hgL
      (make_list_ground [.int z] (by simp [isGroundList, isGround])) h
  | float q =>
    exact (unify_ground_all fuel).1 s L (make_list [.float q]) false s' hgL
      (make_list_ground [.float q] (by simp [isGroundList, isGround])) h
  | struct f args =>
    simp only [isGround] at hgT
    exact (unify_ground_all fuel).1 s L (make_list (.atom f :: args)) false s' hgL
      (make_list_ground (.atom f :: args)
        (by simp [isGroundList, isGround, hgT])) h
  | cons hh tt =>
    cases h

/-- C8 counterexample: the zero-arity structure `f()` and the atom `f` both
satisfy `T =.. [f]`, yet they are different terms (and `_identical` reports
them different): the round-trip law fails. -/
theorem C8_counterexample :
    builtin_univ ({} : St) 9 (.struct "f" []) (.cons (.atom "f") NIL) =
        some (true, {}) ∧
    builtin_univ ({} : St) 9 (.atom "f") (.cons (.atom "f") NIL) =
        some (true, {}) ∧
    (PTerm.struct "f" [] ≠ .atom "f") ∧
    identicalF ({} : St) 5 (.struct "f" []) (.atom "f") = some false :=
  ⟨by rfl, by rfl, by decide, by rfl⟩

/-- C8 (amended): on ground terms, excluding the zero-arity-structure
degeneracy, the round-trip law holds: if `T =.. L` and `T' =.. L` both
succeed for the same ground `L`, then `T = T'`. -/
theorem C8_theorem (s1 s2 s1' s2' : St) (fuel1 fuel2 : Nat) (T T' L : PTerm)
    (hgT : isGround T = true) (hgT' : isGround T' = true) (hgL : isGround L = true)
    (hz : ∀ f, T ≠ .struct f []) (hz' : ∀ f, T' ≠ .struct f [])
    (h1 : builtin_univ s1 fuel1 T L = some (true, s1'))
    (h2 : builtin_univ s2 fuel2 T' L = some (true, s2')) :
    T = T' := by
  have e1 := univ_ground_eq hgT hgL h1
  have e2 := univ_ground_eq hgT' hgL h2
  have e3 : univElems T = univElems T' := make_list_inj _ _ (by rw [← e1, ← e2])
  cases T <;> cases T'
  all_goals (try simp [isGround] at hgT)
  all_goals (try simp [isGround] at hgT')
  all_goals simp only [univElems] at e3
  all_goals (try simp at e3)
  case atom.atom => rw [e3]
  case int.int => rw [e3]
  case float.float => rw [e3]
  case cons.cons => rw [e3.1, e3.2]
  case struct.struct => rw [e3.1, e3.2]
  case atom.struct => exact absurd (by rw [e3.2]) (hz' _)
  case struct.atom => exact absurd (by rw [e3.2]) (hz _)

/-- C8 witness: the ground one-argument structure `f(a)` and the list
`[f, a]` satisfy both hypotheses of the amended round-trip. -/
theorem C8_witness : PTerm.struct "f" [.atom "a"] = .struct "f" [.atom "a"] :=
  C8_theorem {} {} {} {} 9 9 (.struct "f" [.atom "a"]) (.struct "f" [.atom "a"])
    (.cons (.atom "f") (.cons (.atom "a") NIL))
    (by rfl) (by rfl) (by rfl)
    (fun f h => by injection h with h1 h2; cases h2)
    (fun f h => by injection h with h1 h2; cases h2)
    (by rfl) (by rfl)

theorem tc_refl_n : ∀ n : Nat,
    (∀ t : PTerm, sizeOf t ≤ n → term_compare t t = .ok .eq) ∧
    (∀ l : List PTerm, sizeOf l ≤ n → term_compare_args l l = .ok .eq) := by
  intro n
  induction n using Nat.strong_induction_on with
  | _ n ih =>
    constructor
    · intro t ht
      unfold term_compare
      rw [if_neg (by simp)]
      cases t with
      | var v => simp
      | atom a => simp
      | int z => simp
      | float q => simp
      | struct f args =>
        have hlt : sizeOf args < n := by
          have := PTerm.struct.sizeOf_spec f args
          omega
        simp [(ih (sizeOf args) hlt).2 args le_rfl]
      | cons h tl =>
        have h1 : sizeOf h < n := by
          have := PTerm.cons.sizeOf_spec h tl
          omega
        have h2 : sizeOf tl < n := by
          have := PTerm.cons.sizeOf_spec h tl
          omega
        simp [(ih (sizeOf h) h1).1 h le_rfl, (ih (sizeOf tl) h2).1 tl le_rfl]
    · intro l hl
      cases l with
      | nil => rfl
      | cons a as =>
        have h1 : sizeOf a < n := by
          have := List.cons.sizeOf_spec a as
          omega
        have h2 : sizeOf as < n := by
          have := List.cons.sizeOf_spec a as
          omega
        unfold term_compare_args
        simp [(ih (sizeOf a) h1).1 a le_rfl, (ih (sizeOf as) h2).2 as le_rfl]

/-- `_term_compare` on equal operands answers "equal" (`compare/3`
reflexivity). -/
theorem tc_refl (t : PTerm) : term_compare t t = .ok .eq :=
  (tc_refl_n (sizeOf t)).1 t le_rfl

theorem tc_eq_n : ∀ n : Nat,
    (∀ t1 t2 : PTerm, sizeOf t1 ≤ n → term_compare t1 t2 = .ok .eq → t1 = t2) ∧
    (∀ l1 l2 : List PTerm, sizeOf l1 ≤ n → l1.length = l2.length →
      term_compare_args l1 l2 = .ok .eq → l1 = l2) := by
  intro n
  induction n using Nat.strong_induction_on with
  | _ n ih =>
    constructor
    · intro t1 t2 ht heq
      unfold term_compare at heq
      split at heq
      · split at heq <;> cases heq
      · rename_i hrank
        cases t1 <;> cases t2 <;> (try simp [type_order] at hrank) <;>
          simp only [] at heq
        · -- var / var
          rename_i a b
          split at heq
          · rename_i hab; rw [hab]
          · split at heq <;> cases heq
        · -- float / float
          rename_i a b
          split at heq
          · rename_i hab; rw [hab]
          · split at heq <;> cases heq
        · -- int / int
          rename_i a b
          split at heq
          · rename_i hab; rw [hab]
          · split at heq <;> cases heq
        · -- atom / atom
          rename_i a b
          split at heq
          · rename_i hab; rw [hab]
          · split at heq <;> cases heq
        · -- struct / struct
          rename_i f1 a1 f2 a2
          split at heq
          · split at heq <;> cases heq
          · split at heq
            · split at heq <;> cases heq
            · rename_i hlen hf
              push_neg at hlen hf
              have hsz : sizeOf a1 < n := by
                have := PTerm.struct.sizeOf_spec f1 a1
                omega
              rw [hf, (ih (sizeOf a1) hsz).2 a1 a2 le_rfl hlen heq]
        · -- struct / cons
          cases heq
        · -- cons / struct
          cases heq
        · -- cons / cons
          rename_i h1 tl1 h2 tl2
          split at heq
          · cases heq
          · cases heq
          · cases heq
          · rename_i hu
            have s1 : sizeOf h1 < n := by
              have := PTerm.cons.sizeOf_spec h1 tl1
              omega
            have s2 : sizeOf tl1 < n := by
              have := PTerm.cons.sizeOf_spec h1 tl1
              omega
            rw [(ih (sizeOf h1) s1).1 h1 h2 le_rfl hu,
                (ih (sizeOf tl1) s2).1 tl1 tl2 le_rfl heq]
    · intro l1 l2 hl hlen heq
      cases l1 with
      | nil =>
        cases l2 with
        | nil => rfl
        | cons b bs => simp at hlen
      | cons a as =>
        cases l2 with
        | nil => simp at hlen
        | cons b bs =>
          unfold term_compare_args at heq
          split at heq
          · cases heq
          · cases heq
          · cases heq
          · rename_i hu
            have s1 : sizeOf a < n := by
              have := List.cons.sizeOf_spec a as
              omega
            have s2 : sizeOf as < n := by
              have := List.cons.sizeOf_spec a as
              omega
            simp only [List.length_cons, Nat.succ.injEq] at hlen
            rw [(ih (sizeOf a) s1).1 a b le_rfl hu,
                (ih (sizeOf as) s2).2 as bs le_rfl hlen heq]

/-- `_term_compare` answers "equal" exactly on equal terms. -/
theorem tc_eq_iff (t1 t2 : PTerm) : term_compare t1 t2 = .ok .eq ↔ t1 = t2 :=
  ⟨(tc_eq_n (sizeOf t1)).1 t1 t2 le_rfl, fun h => h ▸ tc_refl t1⟩

theorem tc_total_swap_n : ∀ n : Nat,
    (∀ t1 t2 : PTerm, sizeOf t1 ≤ n → noCons t1 = true → noCons t2 = true →
      ∃ o, term_compare t1 t2 = .ok o ∧ term_compare t2 t1 = .ok o.swap) ∧
    (∀ l1 l2 : List PTerm, sizeOf l1 ≤ n → noConsList l1 = true → noConsList l2 = true →
      ∃ o, term_compare_args l1 l2 = .ok o ∧ term_compare_args l2 l1 = .ok o.swap) := by
  intro n
  induction n using Nat.strong_induction_on with
  | _ n ih =>
    constructor
    · intro t1 t2 ht h1 h2
      by_cases hrank : type_order t1 ≠ type_order t2
      · unfold term_compare
        rw [if_pos hrank, if_pos (Ne.symm hrank)]
        rcases Nat.lt_trichotomy (type_order t1) (type_order t2) with h | h | h
        · exact ⟨.lt, by rw [if_pos h],
            by rw [if_neg (Nat.not_lt.mpr h.le)]; rfl⟩
        · exact absurd h hrank
        · exact ⟨.gt, by rw [if_neg (Nat.not_lt.mpr h.le)],
            by rw [if_pos h]; rfl⟩
      · push_neg at hrank
        cases t1 <;> cases t2 <;>
          (try simp [type_order] at hrank) <;>
          (try simp [noCons] at h1) <;>
          (try simp [noCons] at h2)
        · -- var / var
          rename_i a b
          unfold term_compare
          rw [if_neg (by simp [type_order]), if_neg (by simp [type_order])]
          simp only []
          rcases lt_trichotomy a b with h | h | h
          · exact ⟨.lt, by rw [if_neg (ne_of_lt h), if_pos h],
              by rw [if_neg (ne_of_gt h), if_neg (not_lt.mpr h.le)]; rfl⟩
          · exact ⟨.eq, by rw [if_pos h], by rw [if_pos h.symm]; rfl⟩
          · exact ⟨.gt, by rw [if_neg (ne_of_gt h), if_neg (not_lt.mpr h.le)],
              by rw [if_neg (ne_of_lt h), if_pos h]; rfl⟩
        · -- float / float
          rename_i a b
          unfold term_compare
          rw [if_neg (by simp [type_order]), if_neg (by simp [type_order])]
          simp only []
          rcases lt_trichotomy a b with h | h | h
          · exact ⟨.lt, by rw [if_neg (ne_of_lt h), if_pos h],
              by rw [if_neg (ne_of_gt h), if_neg (not_lt.mpr h.le)]; rfl⟩
          · exact ⟨.eq, by rw [if_pos h], by rw [if_pos h.symm]; rfl⟩
          · exact ⟨.gt, by rw [if_neg (ne_of_gt h), if_neg (not_lt.mpr h.le)],
              by rw [if_neg (ne_of_lt h), if_pos h]; rfl⟩
        · -- int / int
          rename_i a b
          unfold term_compare
          rw [if_neg (by simp [type_order]), if_neg (by simp [type_order])]
          simp only []
          rcases lt_trichotomy a b with h | h | h
          · exact ⟨.lt, by rw [if_neg (ne_of_lt h), if_pos h],
              by rw [if_neg (ne_of_gt h), if_neg (not_lt.mpr h.le)]; rfl⟩
          · exact ⟨.eq, by rw [if_pos h], by rw [if_pos h.symm]; rfl⟩
          · exact ⟨.gt, by rw [if_neg (ne_of_gt h), if_neg (not_lt.mpr h.le)],
              by rw [if_neg (ne_of_lt h), if_pos h]; rfl⟩
        · -- atom / atom
          rename_i a b
          unfold term_compare
          rw [if_neg (by simp [type_order]), if_neg (by simp [type_order])]
          simp only []
          rcases lt_trichotomy a b with h | h | h
          · exact ⟨.lt, by rw [if_neg (ne_of_lt h), if_pos h],
              by rw [if_neg (ne_of_gt h), if_neg (not_lt.mpr h.le)]; rfl⟩
          · exact ⟨.eq, by rw [if_pos h], by rw [if_pos h.symm]; rfl⟩
          · exact ⟨.gt, by rw [if_neg (ne_of_gt h), if_neg (not_lt.mpr h.le)],
              by rw [if_neg (ne_of_lt h), if_pos h]; rfl⟩
        · -- struct / struct
          rename_i f1 a1 f2 a2
          unfold term_compare
          rw [if_neg (by simp [type_order]), if_neg (by simp [type_order])]
          simp only []
          rcases Nat.lt_trichotomy a1.length a2.length with hl | hl | hl
          · exact ⟨.lt,
              by rw [if_pos hl.ne, if_pos hl],
              by rw [if_pos hl.ne', if_neg (Nat.not_lt.mpr hl.le)]; rfl⟩
          · rw [if_neg (not_ne_iff.mpr hl), if_neg (not_ne_iff.mpr hl.symm)]
            rcases lt_trichotomy f1 f2 with hf | hf | hf
            · exact ⟨.lt, by rw [if_pos hf.ne, if_pos hf],
                by rw [if_pos hf.ne', if_neg (not_lt.mpr hf.le)]; rfl⟩
            · rw [hf, if_neg (not_ne_iff.mpr rfl), if_neg (not_ne_iff.mpr rfl)]
              have hsz : sizeOf a1 < n := by
                have := PTerm.struct.sizeOf_spec f1 a1
                omega
              exact (ih (sizeOf a1) hsz).2 a1 a2 le_rfl h1 h2
            · exact ⟨.gt, by rw [if_pos hf.ne', if_neg (not_lt.mpr hf.le)],
                by rw [if_pos hf.ne, if_pos hf]; rfl⟩
          · exact ⟨.gt,
              by rw [if_pos hl.ne', if_neg (Nat.not_lt.mpr hl.le)],
              by rw [if_pos hl.ne, if_pos hl]; rfl⟩
    · intro l1 l2 hl h1 h2
      cases l1 with
      | nil =>
        cases l2 with
        | nil => exact ⟨.eq, rfl, rfl⟩
        | cons b bs => exact ⟨.eq, rfl, rfl⟩
      | cons a as =>
        cases l2 with
        | nil => exact ⟨.eq, rfl, rfl⟩
        | cons b bs =>
          simp only [noConsList, Bool.and_eq_true] at h1 h2
          have sa : sizeOf a < n := by
            have := List.cons.sizeOf_spec a as
            omega
          have sas : sizeOf as < n := by
            have := List.cons.sizeOf_spec a as
            omega
          obtain ⟨o, e1, e2⟩ := (ih (sizeOf a) sa).1 a b le_rfl h1.1 h2.1
          cases o with
          | lt =>
            have e2' : term_compare b a = Except.ok Ordering.gt := e2
            exact ⟨.lt, by unfold term_compare_args; rw [e1],
              by unfold term_compare_args; rw [e2']; rfl⟩
          | gt =>
            have e2' : term_compare b a = Except.ok Ordering.lt := e2
            exact ⟨.gt, by unfold term_compare_args; rw [e1],
              by unfold term_compare_args; rw [e2']; rfl⟩
          | eq =>
            have e2' : term_compare b a = Except.ok Ordering.eq := e2
            obtain ⟨o', f1, f2⟩ := (ih (sizeOf as) sas).2 as bs le_rfl h1.2 h2.2
            refine ⟨o', by unfold term_compare_args; rw [e1]; exact f1,
              by unfold term_compare_args; rw [e2']; exact f2⟩

/-- On `Cons`-free terms `_term_compare` is total and antisymmetric:
some comparison is always returned, and swapping the operands swaps it. -/
theorem tc_total_swap (t1 t2 : PTerm) (h1 : noCons t1 = true) (h2 : noCons t2 = true) :
    ∃ o, term_compare t1 t2 = .ok o ∧ term_compare t2 t1 = .ok o.swap :=
  (tc_total_swap_n (sizeOf t1)).1 t1 t2 le_rfl h1 h2

theorem ite3_lt {α : Type _} [LinearOrder α] {a b : α} [Decidable (a = b)]
    [Decidable (a < b)] :
    (if a = b then Ordering.eq else if a < b then Ordering.lt else Ordering.gt) =
        Ordering.lt ↔ a < b := by
  split
  · rename_i h
    constructor
    · intro hh; cases hh
    · intro hh; exact absurd h hh.ne
  · split
    · rename_i h
      exact ⟨fun _ => h, fun _ => rfl⟩
    · rename_i h1 h2
      constructor
      · intro hh; cases hh
      · intro hh; exact absurd hh h2

theorem tc_rank_lt {t1 t2 : PTerm} (h : type_order t1 ≠ type_order t2) :
    term_compare t1 t2 = .ok .lt ↔ type_order t1 < type_order t2 := by
  unfold term_compare
  rw [if_pos h]
  simp only [Except.ok.injEq]
  split
  · rename_i hlt
    exact ⟨fun _ => hlt, fun _ => rfl⟩
  · rename_i hge
    constructor
    · intro hh; cases hh
    · intro hh; exact absurd hh hge

theorem tc_var_lt {a b : Nat} :
    term_compare (.var a) (.var b) = .ok .lt ↔ a < b := by
  unfold term_compare
  rw [if_neg (by simp [type_order])]
  simp only [Except.ok.injEq]
  exact ite3_lt

theorem tc_float_lt {a b : Rat} :
    term_compare (.float a) (.float b) = .ok .lt ↔ a < b := by
  unfold term_compare
  rw [if_neg (by simp [type_order])]
  simp only [Except.ok.injEq]
  exact ite3_lt

theorem tc_int_lt {a b : Int} :
    term_compare (.int a) (.int b) = .ok .lt ↔ a < b := by
  unfold term_compare
  rw [if_neg (by simp [type_order])]
  simp only [Except.ok.injEq]
  exact ite3_lt

theorem tc_atom_lt {a b : String} :
    term_compare (.atom a) (.atom b) = .ok .lt ↔ a < b := by
  unfold term_compare
  rw [if_neg (by simp [type_order])]
  simp only [Except.ok.injEq]
  exact ite3_lt

theorem tc_struct_lt {f1 f2 : String} {a1 a2 : List PTerm} :
    term_compare (.struct f1 a1) (.struct f2 a2) = .ok .lt ↔
      (a1.length < a2.length ∨ (a1.length = a2.length ∧ f1 < f2) ∨
       (a1.length = a2.length ∧ f1 = f2 ∧ term_compare_args a1 a2 = .ok .lt)) := by
  unfold term_compare
  rw [if_neg (by simp [type_order])]
  simp only []
  by_cases hL : a1.length = a2.length
  · rw [if_neg (not_ne_iff.mpr hL)]
    by_cases hF : f1 = f2
    · rw [if_neg (not_ne_iff.mpr hF)]
      simp [hL, hF, lt_irrefl]
    · rw [if_pos hF]
      by_cases hf : f1 < f2
      · simp [hL, hF, hf, lt_irrefl]
      · simp only [if_neg hf, Except.ok.injEq]
        constructor
        · intro hh; cases hh
        · intro hh
          rcases hh with hh | ⟨_, hh⟩ | ⟨_, hh, _⟩
          · exact absurd hh (by omega)
          · exact absurd hh hf
          · exact absurd hh hF
  · rw [if_pos hL]
    by_cases hlt : a1.length < a2.length
    · simp [hlt, hL]
    · simp only [if_neg hlt, Except.ok.injEq]
      constructor
      · intro hh; cases hh
      · intro hh
        rcases hh with hh | ⟨hh, _⟩ | ⟨hh, _, _⟩
        · exact absurd hh hlt
        · exact absurd hh hL
        · exact absurd hh hL

theorem tc_trans_n : ∀ n : Nat,
    (∀ t1 t2 t3 : PTerm, sizeOf t1 ≤ n → noCons t1 = true → noCons t2 = true →
      noCons t3 = true → term_compare t1 t2 = .ok .lt → term_compare t2 t3 = .ok .lt →
      term_compare t1 t3 = .ok .lt) ∧
    (∀ l1 l2 l3 : List PTerm, sizeOf l1 ≤ n → noConsList l1 = true →
      noConsList l2 = true → noConsList l3 = true →
      term_compare_args l1 l2 = .ok .lt → term_compare_args l2 l3 = .ok .lt →
      term_compare_args l1 l3 = .ok .lt) := by
  intro n
  induction n using Nat.strong_induction_on with
  | _ n ih =>
    constructor
    · intro t1 t2 t3 ht hc1 hc2 hc3 h12 h23
      by_cases h12r : type_order t1 = type_order t2
      · by_cases h23r : type_order t2 = type_order t3
        · -- one rank throughout: same constructor kind on the cons-free fragment
          cases t1 <;> cases t2 <;> cases t3 <;>
            first
              | (simp [type_order] at h12r; done)
              | (simp [type_order] at h23r; done)
              | (simp [noCons] at hc1; done)
              | (simp [noCons] at hc2; done)
              | (simp [noCons] at hc3; done)
              | skip
          · exact tc_var_lt.mpr (Nat.lt_trans (tc_var_lt.mp h12) (tc_var_lt.mp h23))
          · exact tc_atom_lt.mpr (lt_trans (tc_atom_lt.mp h12) (tc_atom_lt.mp h23))
          · exact tc_int_lt.mpr (lt_trans (tc_int_lt.mp h12) (tc_int_lt.mp h23))
          · exact tc_float_lt.mpr (lt_trans (tc_float_lt.mp h12) (tc_float_lt.mp h23))
          · rename_i f1 a1 f2 a2 f3 a3
            simp only [noCons] at hc1 hc2 hc3
            have hsz : sizeOf a1 < n := by
              have := PTerm.struct.sizeOf_spec f1 a1
              omega
            rcases tc_struct_lt.mp h12 with hA | ⟨hL, hF⟩ | ⟨hL, hF, hargs⟩ <;>
              rcases tc_struct_lt.mp h23 with hA' | ⟨hL', hF'⟩ | ⟨hL', hF', hargs'⟩ <;>
                refine tc_struct_lt.mpr ?_
            · exact Or.inl (Nat.lt_trans hA hA')
            · exact Or.inl (hL' ▸ hA)
            · exact Or.inl (hL' ▸ hA)
            · exact Or.inl (hL ▸ hA')
            · exact Or.inr (Or.inl ⟨hL.trans hL', lt_trans hF hF'⟩)
            · exact Or.inr (Or.inl ⟨hL.trans hL', hF' ▸ hF⟩)
            · exact Or.inl (hL ▸ hA')
            · exact Or.inr (Or.inl ⟨hL.trans hL', hF ▸ hF'⟩)
            · exact Or.inr (Or.inr ⟨hL.trans hL', hF.trans hF',
                (ih (sizeOf a1) hsz).2 a1 a2 a3 le_rfl hc1 hc2 hc3 hargs hargs'⟩)
        · -- ranks split between t2 and t3
          have hr23 := (tc_rank_lt h23r).mp h23
          have h13r : type_order t1 ≠ type_order t3 := by omega
          exact (tc_rank_lt h13r).mpr (by omega)
      · have hr12 := (tc_rank_lt h12r).mp h12
        by_cases h23r : type_order t2 = type_order t3
        · have h13r : type_order t1 ≠ type_order t3 := by omega
          exact (tc_rank_lt h13r).mpr (by omega)
        · have hr23 := (tc_rank_lt h23r).mp h23
          have h13r : type_order t1 ≠ type_order t3 := by omega
          exact (tc_rank_lt h13r).mpr (by omega)
    · intro l1 l2 l3 hl hc1 hc2 hc3 h12 h23
      cases l1 with
      | nil => simp [term_compare_args] at h12
      | cons a as =>
        cases l2 with
        | nil => simp [term_compare_args] at h12
        | cons b bs =>
          cases l3 with
          | nil => simp [term_compare_args] at h23
          | cons c cs =>
            simp only [noConsList, Bool.and_eq_true] at hc1 hc2 hc3
            have sa : sizeOf a < n := by
              have := List.cons.sizeOf_spec a as
              omega
            have sas : sizeOf as < n := by
              have := List.cons.sizeOf_spec a as
              omega
            unfold term_compare_args at h12 h23 ⊢
            split at h12
            · cases h12
            · -- head a/b compares lt
              rename_i hab
              split at h23
              · cases h23
              · -- head b/c compares lt: elementwise transitivity
                rename_i hbc
                rw [(ih (sizeOf a) sa).1 a b c le_rfl hc1.1 hc2.1 hc3.1 hab hbc]
              · cases h23
              · -- head b/c equal: substitute
                rename_i hbc
                have hbc' : b = c := (tc_eq_iff b c).mp hbc
                subst hbc'
                rw [hab]
            · cases h12
            · -- head a/b equal
              rename_i hab
              have hab' : a = b := (tc_eq_iff a b).mp hab
              subst hab'
              split at h23
              · cases h23
              · rfl
              · cases h23
              · exact (ih (sizeOf as) sas).2 as bs cs le_rfl hc1.2 hc2.2 hc3.2 h12 h23

/-- On `Cons`-free terms the strict part of `_term_compare` is transitive. -/
theorem tc_trans {t1 t2 t3 : PTerm} (hc1 : noCons t1 = true) (hc2 : noCons t2 = true)
    (hc3 : noCons t3 = true) (h12 : term_compare t1 t2 = .ok .lt)
    (h23 : term_compare t2 t3 = .ok .lt) : term_compare t1 t3 = .ok .lt :=
  (tc_trans_n (sizeOf t1)).1 t1 t2 t3 le_rfl hc1 hc2 hc3 h12 h23

/-- C6 counterexample: comparing a list cell against a structure (both of
type rank "compound") raises `AttributeError` in either direction, so
`_term_compare` is not total on all terms. -/
theorem C6_counterexample :
    term_compare (.cons (.int 1) NIL) (.struct "f" [.int 1]) = .error () ∧
    term_compare (.struct "f" [.int 1]) (.cons (.int 1) NIL) = .error () := ⟨rfl, rfl⟩

/-- C6 (amended): on terms free of list cells, `_term_compare` is a total
order: defined and antisymmetric under swap, equality exactly on equal
terms, transitive; and `@<`, `@>`, `@=<`, `@>=` and the result atom of
`compare/3` agree with it on all terms. -/
theorem C6_theorem :
    (∀ t1 t2 : PTerm, noCons t1 = true → noCons t2 = true →
        ∃ o, term_compare t1 t2 = .ok o ∧ term_compare t2 t1 = .ok o.swap) ∧
    (∀ t1 t2 : PTerm, term_compare t1 t2 = .ok .eq ↔ t1 = t2) ∧
    (∀ t1 t2 t3 : PTerm, noCons t1 = true → noCons t2 = true → noCons t3 = true →
        term_compare t1 t2 = .ok .lt → term_compare t2 t3 = .ok .lt →
        term_compare t1 t3 = .ok .lt) ∧
    (∀ t1 t2 : PTerm, builtin_term_lt t1 t2 = .ok true ↔ term_compare t1 t2 = .ok .lt) ∧
    (∀ t1 t2 : PTerm, builtin_term_gt t1 t2 = .ok true ↔ term_compare t1 t2 = .ok .gt) ∧
    (∀ t1 t2 : PTerm, builtin_term_le t1 t2 = .ok true ↔
        (term_compare t1 t2 = .ok .lt ∨ term_compare t1 t2 = .ok .eq)) ∧
    (∀ t1 t2 : PTerm, builtin_term_ge t1 t2 = .ok true ↔
        (term_compare t1 t2 = .ok .gt ∨ term_compare t1 t2 = .ok .eq)) ∧
    (∀ t1 t2 : PTerm, compare_atom t1 t2 = .ok "<" ↔ builtin_term_lt t1 t2 = .ok true) ∧
    (∀ t1 t2 : PTerm, compare_atom t1 t2 = .ok ">" ↔ builtin_term_gt t1 t2 = .ok true) ∧
    (∀ t1 t2 : PTerm, compare_atom t1 t2 = .ok "=" ↔ term_compare t1 t2 = .ok .eq) := by
  refine ⟨fun t1 t2 => tc_total_swap t1 t2, fun t1 t2 => tc_eq_iff t1 t2,
    fun t1 t2 t3 hc1 hc2 hc3 => tc_trans hc1 hc2 hc3, ?_, ?_, ?_, ?_, ?_, ?_, ?_⟩ <;>
    · intro t1 t2
      rcases h : term_compare t1 t2 with e | o
      · simp [builtin_term_lt, builtin_term_gt, builtin_term_le, builtin_term_ge,
          compare_atom, Except.map, h]
      · cases o <;>
          simp [builtin_term_lt, builtin_term_gt, builtin_term_le, builtin_term_ge,
            compare_atom, Except.map, h]

/-- C6 witness: the order is exercised on `1`, `2` and `a`: transitivity
across the integer and atom ranks, and totality with swap on a concrete
pair. -/
theorem C6_witness :
    term_compare (.int 1) (.atom "a") = .ok .lt ∧
    (∃ o, term_compare (.int 1) (.atom "a") = .ok o ∧
        term_compare (.atom "a") (.int 1) = .ok o.swap) :=
  ⟨C6_theorem.2.2.1 (.int 1) (.int 2) (.atom "a") rfl rfl rfl (by rfl) (by rfl),
   C6_theorem.1 (.int 1) (.atom "a") rfl rfl⟩

set_option maxHeartbeats 2000000 in
set_option maxRecDepth 8000 in
/-- C1 counterexample: in the final state of the `choose(X)` run the
`choose/1` choice-box never received a guard type (the
`hasattr(chb, 'guard_type')` test is false on a fresh `ChoiceBox`, so the
clause's `COMMIT` is dropped) and the second alternative's and-box ends
`STABLE`, not `DEAD`: no commit pruning ever kills the sibling. -/
theorem C1_counterexample :
    (chooseRun 15).map (fun s => ((s.getChb 1).guardType, (s.getAndb 2).status)) =
      some (none, Status.STABLE) := by
  simp [St.getVar, St.setVar, St.getAndb, St.setAndb, St.getChb, St.setChb, St.bindings, deref, trailBinding, undoStep, undoSteps, undoTrailTo, suspStep, wakeAll, occursIn, occursInList, bindVarUCore, bindVarU, unifyF, unifyArgsF, pyVarName, allocVar, newEnv, newAndBox, newChoiceBox, envWalk, is_ancestor_of, is_local_var, is_external_var, is_dead, is_stable, is_unstable, is_quiet, is_solved, mark_dead, mark_unstable, is_determinate, lastAndb, lastChb, add_alternative, remove_alternative, create_choice, create_alternative, add_suspension_andbox, get_clauses, BUILTINS, is_builtin, call_builtin, copy_clause_term, copy_clause_args, copy_clause_body, copy_clause, copy_term_to_local, copy_term_to_local_args, collect_query_vars, collect_query_vars_list, deref_term, deref_term_list, collect_unifiers, build_var_map, resolveQ, record_bindings, record_solution, rehome_term_var, rehome_term_args, rehome_locals_loop, rehome_local_vars, discharge_unifiers, prune_all_siblings, prune_right_siblings, prune_siblings, in_wait_guards, is_candidate, find_candidate, find_candidate_chb, find_candidate_alt, find_copied_fork, find_copied_candidate, cleanup_dead_loop, cleanup_dead_alternatives, copy_is_local_env, copy_env, copy_term_c, copy_term_list_c, copy_local_var, copy_localvars_c, copy_unifiers_c, copy_andbox_c, copy_choicebox_c, copy_andbox_chain_c, copy_choicebox_chain_c, copy_andbox_subtree, add_unifier_m, try_unification, expand_clauses, remove_copy_siblings, run, process_wake, process_recall, process_tasks, try_split, try_split_loop, do_split, try_andbox, try_andbox_goals, try_goal, expand_predicate, try_all_alternatives, expand_disjunction, expand_if_then_else, try_negation, try_guard, promote_andbox, propagate_failure, akl_solve, chooseProg, chooseStart, chooseGoal, chooseRun]

set_option maxHeartbeats 2000000 in
set_option maxRecDepth 8000 in
/-- C1 (amended): the run of `choose(X)` does yield exactly the one
solution `X = a`, but through nondeterminate splitting and a failed
promotion of the remaining alternative, not through the commit guard. -/
theorem C1_theorem :
    (chooseRun 15).map St.solutions = some [[("X", PTerm.atom "a")]] := by
  simp [St.getVar, St.setVar, St.getAndb, St.setAndb, St.getChb, St.setChb, St.bindings, deref, trailBinding, undoStep, undoSteps, undoTrailTo, suspStep, wakeAll, occursIn, occursInList, bindVarUCore, bindVarU, unifyF, unifyArgsF, pyVarName, allocVar, newEnv, newAndBox, newChoiceBox, envWalk, is_ancestor_of, is_local_var, is_external_var, is_dead, is_stable, is_unstable, is_quiet, is_solved, mark_dead, mark_unstable, is_determinate, lastAndb, lastChb, add_alternative, remove_alternative, create_choice, create_alternative, add_suspension_andbox, get_clauses, BUILTINS, is_builtin, call_builtin, copy_clause_term, copy_clause_args, copy_clause_body, copy_clause, copy_term_to_local, copy_term_to_local_args, collect_query_vars, collect_query_vars_list, deref_term, deref_term_list, collect_unifiers, build_var_map, resolveQ, record_bindings, record_solution, rehome_term_var, rehome_term_args, rehome_locals_loop, rehome_local_vars, discharge_unifiers, prune_all_siblings, prune_right_siblings, prune_siblings, in_wait_guards, is_candidate, find_candidate, find_candidate_chb, find_candidate_alt, find_copied_fork, find_copied_candidate, cleanup_dead_loop, cleanup_dead_alternatives, copy_is_local_env, copy_env, copy_term_c, copy_term_list_c, copy_local_var, copy_localvars_c, copy_unifiers_c, copy_andbox_c, copy_choicebox_c, copy_andbox_chain_c, copy_choicebox_chain_c, copy_andbox_subtree, add_unifier_m, try_unification, expand_clauses, remove_copy_siblings, run, process_wake, process_recall, process_tasks, try_split, try_split_loop, do_split, try_andbox, try_andbox_goals, try_goal, expand_predicate, try_all_alternatives, expand_disjunction, expand_if_then_else, try_negation, try_guard, promote_andbox, propagate_failure, akl_solve, chooseProg, chooseStart, chooseGoal, chooseRun]
